import Mathlib

/-!
Trinity TX context registry (`Trinity/tx.h`).

A shallow embedding of the three-level registry of transmit contexts
(host `tx_context` → `endpoint_tx_context` → `pair_tx_context`) and of the
functions that initialise, insert into, search, delete from and empty it.

Modelling conventions.

* A kernel `list_head` list is a Lean `List` of the entries it links, in list
  order (head first). `list_add_tail` appends at the end, `list_del` removes
  the entry. This is what the kernel primitive does to a node that is not yet
  linked into the list (`list_add_tail_fresh`, proved on the pointers); it
  does no such check, and on a node that is already linked it truncates or
  loops the list (`list_add_tail_relinked`). The registry functions that call
  it speak for the code on nodes not yet linked; the theorems on the count
  invariant, the lookup path, the insertion order and the frame of
  `Insert_tx_pair` carry that hypothesis.
* A pointer to a context is the context's address (`addr`) together with the
  fields of the pointee; a pointer that the code tests against `NULL` is an
  `Option`, a pointer that the code dereferences unconditionally is a value.
* `unsigned int` fields are natural numbers; `x++` and `x--` are computed
  modulo `2^32` (`UINT_MOD`).
* Every function returns its C return value (if any), the state it leaves
  behind, and the trace of the side effects it performs, in program order
  (`Effect`): lock operations, list mutations, counter updates, releases and
  diagnostics.
-/

namespace Trinity

/-- The modulus of `unsigned int` arithmetic. -/
def UINT_MOD : Nat := 4294967296

/-- Unsigned `x++`. -/
def uint_inc (x : Nat) : Nat := (x + 1) % UINT_MOD

/-- Unsigned `x--`. -/
def uint_dec (x : Nat) : Nat := (x + (UINT_MOD - 1)) % UINT_MOD

/-- Unsigned `x * y`. -/
def uint_mul (x y : Nat) : Nat := (x * y) % UINT_MOD

/-- The kernel's `ktime_set(secs, nsecs)`: the time span of `secs` seconds and
`nsecs` nanoseconds, in nanoseconds. -/
def ktime_set (secs nsecs : Nat) : Nat := secs * 1000000000 + nsecs

/-- Per VM-to-VM pair TX context (`struct pair_tx_context`). The rate limiter,
tasklet, timer and lock sub-objects are touched only through `Effect`s, except
for the timer's callback `timer.function`, kept as `timer_function` (the
address of the function, 0 for one never set). -/
structure pair_tx_context where
  addr : Nat
  local_ip : Nat
  remote_ip : Nat
  guarantee_bw : Nat
  timer_interval : Nat
  timer_function : Nat := 0
  deriving DecidableEq, Repr

/-- Per endpoint (VM) TX context (`struct endpoint_tx_context`). -/
structure endpoint_tx_context where
  addr : Nat
  local_ip : Nat
  guarantee_bw : Nat
  pair_list : List pair_tx_context
  pair_num : Nat
  deriving DecidableEq, Repr

/-- Per NIC / physical server TX context (`struct tx_context`). -/
structure tx_context where
  endpoint_list : List endpoint_tx_context
  endpoint_num : Nat
  deriving DecidableEq, Repr

/-- Side effects of the registry functions, in the order the code performs
them. Arguments are the addresses of the contexts concerned. -/
inductive Effect where
  | spin_lock_init_tx
  | spin_lock_init_endpoint (e : Nat)
  | spin_lock_tx
  | spin_unlock_tx
  | spin_lock_endpoint (e : Nat)
  | spin_unlock_endpoint (e : Nat)
  | list_add_tail_pair (p e : Nat)
  | list_add_tail_endpoint (e : Nat)
  | list_del_pair (p : Nat)
  | list_del_endpoint (e : Nat)
  | pair_num_inc (e : Nat)
  | pair_num_dec (e : Nat)
  | endpoint_num_inc
  | hrtimer_cancel (p : Nat)
  | tasklet_kill (p : Nat)
  | Free_tbf (p : Nat)
  | kfree_tbfPtr (p : Nat)
  | kfree_pair (p : Nat)
  | kfree_endpoint (e : Nat)
  | print_pair (p : Nat)
  | print_endpoint (e : Nat)
  | printk_no_matching_endpoint
  | printk_cannot_delete
  | print_summary (endpoint_num pair_num : Nat)
  | Init_tbf (p bw bucket max_len : Nat) (flags : Int)
  | tasklet_init (p func : Nat)
  | hrtimer_init (p : Nat)
  | hrtimer_start (p ns : Nat)
  | spin_lock_init_pair (p : Nat)
  deriving DecidableEq, Repr

/-- `print_pair_tx_context`: one diagnostic line for the pair. -/
def print_pair_tx_context (ptr : pair_tx_context) : List Effect :=
  [Effect.print_pair ptr.addr]

/-- `print_endpoint_tx_context`: one diagnostic line for the endpoint. -/
def print_endpoint_tx_context (ptr : endpoint_tx_context) : List Effect :=
  [Effect.print_endpoint ptr.addr]

/-- Inner loop of `print_tx_context`: count and print every pair of one
endpoint. Returns the local counter `pair_num` afterwards. -/
def print_tx_context_pairs (pair_num : Nat) : List pair_tx_context → Nat × List Effect
  | [] => (pair_num, [])
  | p :: rest =>
      let r := print_tx_context_pairs (uint_inc pair_num) rest
      (r.1, print_pair_tx_context p ++ r.2)

/-- Outer loop of `print_tx_context`: print the endpoint, then run the inner
loop over its pairs. Returns the local counter `pair_num` afterwards. -/
def print_tx_context_endpoints (pair_num : Nat) :
    List endpoint_tx_context → Nat × List Effect
  | [] => (pair_num, [])
  | e :: rest =>
      let r1 := print_tx_context_pairs pair_num e.pair_list
      let r2 := print_tx_context_endpoints r1.1 rest
      (r2.1, print_endpoint_tx_context e ++ r1.2 ++ r2.2)

/-- `print_tx_context`: the two nested loops with the local counter starting
at 0, then the summary line with the host's `endpoint_num` field and the local
counter. -/
def print_tx_context (ptr : tx_context) : List Effect :=
  let r := print_tx_context_endpoints 0 ptr.endpoint_list
  r.2 ++ [Effect.print_summary ptr.endpoint_num r.1]

/-- `Init_tx_context`: on a non-null target, zero the counter, initialise the
lock and the empty endpoint list, return 1; on `NULL` return 0. -/
def Init_tx_context (ptr : Option tx_context) : Nat × Option tx_context × List Effect :=
  match ptr with
  | some h => (1, some { h with endpoint_num := 0, endpoint_list := [] },
      [Effect.spin_lock_init_tx])
  | none => (0, none, [])

/-- `Init_endpoint_tx_context`: on a non-null target, set `pair_num = 0`,
`local_ip = ip`, `guarantee_bw = bw`, initialise the lock and the empty pair
list, return 1; on `NULL` return 0. -/
def Init_endpoint_tx_context (ptr : Option endpoint_tx_context) (ip bw : Nat) :
    Nat × Option endpoint_tx_context × List Effect :=
  match ptr with
  | some e => (1, some { e with pair_num := 0, local_ip := ip, guarantee_bw := bw,
                                pair_list := [] },
      [Effect.spin_lock_init_endpoint e.addr])
  | none => (0, none, [])

/-- `Init_pair_tx_context`. `Init_tbf` is the initialiser of the rate limiter
(`rl.h`), a parameter here: the value it returns for the pair at the given
address and the given `bw`, `bucket`, `max_len`, `flags`. Function pointers
are the addresses of the functions. On a `NULL` target return 0; otherwise set
the three identity fields, call `Init_tbf` and return 0 when it returns 0;
otherwise initialise the tasklet and the timer, set the timer's callback and
`timer_interval`, start the timer with `ktime_set(0, delay*1000)`, the product
taken in `unsigned int`, initialise the lock and return 1. -/
def Init_pair_tx_context (Init_tbf : Nat → Nat → Nat → Nat → Int → Nat)
    (ptr : Option pair_tx_context) (local_ip remote_ip bw bucket max_len : Nat)
    (tasklet_func timer_func : Nat) (delay : Nat) (flags : Int) :
    Nat × Option pair_tx_context × List Effect :=
  match ptr with
  | none => (0, none, [])
  | some p =>
      let p1 := { p with local_ip := local_ip, remote_ip := remote_ip, guarantee_bw := bw }
      if Init_tbf p.addr bw bucket max_len flags = 0 then
        (0, some p1, [Effect.Init_tbf p.addr bw bucket max_len flags])
      else
        (1, some { p1 with timer_function := timer_func, timer_interval := delay },
         [Effect.Init_tbf p.addr bw bucket max_len flags,
          Effect.tasklet_init p.addr tasklet_func,
          Effect.hrtimer_init p.addr,
          Effect.hrtimer_start p.addr (ktime_set 0 (uint_mul delay 1000)),
          Effect.spin_lock_init_pair p.addr])

/-- `Free_pair_tx_context`: cancel the timer, kill the tasklet, free the rate
limiter, release the limiter storage. -/
def Free_pair_tx_context (ptr : pair_tx_context) : List Effect :=
  [Effect.hrtimer_cancel ptr.addr, Effect.tasklet_kill ptr.addr,
   Effect.Free_tbf ptr.addr, Effect.kfree_tbfPtr ptr.addr]

/-- `Insert_tx_pair_endpoint`: when both pointers are non-null, under the
endpoint lock append the pair to the endpoint's pair list and increment
`pair_num`; otherwise do nothing. Returns the endpoint as left behind.
The append is the effect of `list_add_tail` on a pair that is not linked into
this pair list (`Insert_tx_pair_endpoint_refines`); the code does not check
it, and for a pair that is already linked the resulting list is outside this
model (`list_add_tail_relinked`). -/
def Insert_tx_pair_endpoint (pair_ptr : Option pair_tx_context)
    (endpoint_ptr : Option endpoint_tx_context) :
    Option endpoint_tx_context × List Effect :=
  match pair_ptr, endpoint_ptr with
  | some p, some e =>
      (some { e with pair_list := e.pair_list ++ [p], pair_num := uint_inc e.pair_num },
       [Effect.spin_lock_endpoint e.addr, Effect.list_add_tail_pair p.addr e.addr,
        Effect.pair_num_inc e.addr, Effect.spin_unlock_endpoint e.addr])
  | _, e => (e, [])

/-- The `list_for_each_entry` loop of `Insert_tx_pair` over the endpoints not
yet visited: at the first endpoint whose `local_ip` equals the pair's, call
`Insert_tx_pair_endpoint` and return; `none` when the loop runs off the end. -/
def Insert_tx_pair_loop (pair_ptr : pair_tx_context) :
    List endpoint_tx_context → Option (List endpoint_tx_context × List Effect)
  | [] => none
  | e :: rest =>
      if e.local_ip = pair_ptr.local_ip then
        let r := Insert_tx_pair_endpoint (some pair_ptr) (some e)
        some (r.1.getD e :: rest, r.2)
      else
        match Insert_tx_pair_loop pair_ptr rest with
        | some (rest', tr) => some (e :: rest', tr)
        | none => none

/-- `Insert_tx_pair`: insert the pair under the first endpoint with the pair's
`local_ip`; when there is none, only print the diagnostic. -/
def Insert_tx_pair (pair_ptr : pair_tx_context) (ptr : tx_context) :
    tx_context × List Effect :=
  match Insert_tx_pair_loop pair_ptr ptr.endpoint_list with
  | some (es, tr) => ({ ptr with endpoint_list := es }, tr)
  | none => (ptr, [Effect.printk_no_matching_endpoint])

/-- `Insert_tx_endpoint`: under the host lock append the endpoint to the
endpoint list and increment `endpoint_num`. The append is the effect of
`list_add_tail` on an endpoint that is not linked into this endpoint list
(`Insert_tx_endpoint_refines`); the code does not check it, and for an
endpoint that is already linked the resulting list is outside this model
(`list_add_tail_relinked`). -/
def Insert_tx_endpoint (endpoint_ptr : endpoint_tx_context) (ptr : tx_context) :
    tx_context × List Effect :=
  ({ ptr with endpoint_list := ptr.endpoint_list ++ [endpoint_ptr],
              endpoint_num := uint_inc ptr.endpoint_num },
   [Effect.spin_lock_tx, Effect.list_add_tail_endpoint endpoint_ptr.addr,
    Effect.endpoint_num_inc, Effect.spin_unlock_tx])

/-- Inner loop of `Search_tx_pair`: the first pair of the list whose
`remote_ip` equals the argument. -/
def Search_tx_pair_inner (remote_ip : Nat) : List pair_tx_context → Option pair_tx_context
  | [] => none
  | p :: rest => if p.remote_ip = remote_ip then some p else Search_tx_pair_inner remote_ip rest

/-- Outer loop of `Search_tx_pair`: for each endpoint whose `local_ip` equals
the argument run the inner loop and return its hit; on a miss go on with the
next endpoint. -/
def Search_tx_pair_outer (local_ip remote_ip : Nat) :
    List endpoint_tx_context → Option pair_tx_context
  | [] => none
  | e :: rest =>
      if e.local_ip = local_ip then
        match Search_tx_pair_inner remote_ip e.pair_list with
        | some p => some p
        | none => Search_tx_pair_outer local_ip remote_ip rest
      else Search_tx_pair_outer local_ip remote_ip rest

/-- `Search_tx_pair`: the pair found (`none` for `NULL`), the host as left
behind, and the effects performed (the function takes no lock and writes
nothing). -/
def Search_tx_pair (ptr : tx_context) (local_ip remote_ip : Nat) :
    Option pair_tx_context × tx_context × List Effect :=
  (Search_tx_pair_outer local_ip remote_ip ptr.endpoint_list, ptr, [])

/-- Inner `list_for_each_entry_safe` loop of `Empty_tx_context`: print, unlink
and `kfree` every pair. Returns the pairs still linked afterwards. -/
def Empty_tx_context_pairs : List pair_tx_context → List pair_tx_context × List Effect
  | [] => ([], [])
  | p :: rest =>
      let r := Empty_tx_context_pairs rest
      (r.1, print_pair_tx_context p ++ [Effect.list_del_pair p.addr, Effect.kfree_pair p.addr]
            ++ r.2)

/-- Outer `list_for_each_entry_safe` loop of `Empty_tx_context`: print the
endpoint, empty its pair list, unlink and `kfree` the endpoint. Returns the
endpoints still linked afterwards. -/
def Empty_tx_context_endpoints :
    List endpoint_tx_context → List endpoint_tx_context × List Effect
  | [] => ([], [])
  | e :: rest =>
      let r := Empty_tx_context_endpoints rest
      (r.1, print_endpoint_tx_context e ++ (Empty_tx_context_pairs e.pair_list).2
            ++ [Effect.list_del_endpoint e.addr, Effect.kfree_endpoint e.addr] ++ r.2)

/-- `Empty_tx_context`: under the host lock run the two nested loops. The
function assigns to no field of the host other than the list links. -/
def Empty_tx_context (ptr : tx_context) : tx_context × List Effect :=
  let r := Empty_tx_context_endpoints ptr.endpoint_list
  ({ ptr with endpoint_list := r.1 },
   [Effect.spin_lock_tx] ++ r.2 ++ [Effect.spin_unlock_tx])

/-- The `list_for_each_entry_safe` loop of `Delete_tx_pair_endpoint`: at the
first pair whose own `local_ip` and `remote_ip` equal the arguments, unlink it;
returns the remaining list and the pair removed, `none` when the loop runs off
the end. -/
def Delete_tx_pair_endpoint_loop (local_ip remote_ip : Nat) :
    List pair_tx_context → Option (List pair_tx_context × pair_tx_context)
  | [] => none
  | p :: rest =>
      if p.local_ip = local_ip ∧ p.remote_ip = remote_ip then some (rest, p)
      else
        match Delete_tx_pair_endpoint_loop local_ip remote_ip rest with
        | some (rest', q) => some (p :: rest', q)
        | none => none

/-- `Delete_tx_pair_endpoint`: return 0 at once when `pair_num` is 0; otherwise
scan the pair list, and at the first match unlink and `kfree` the pair and
decrement `pair_num` under the endpoint lock and return 1; on a miss print the
diagnostic and return 0. -/
def Delete_tx_pair_endpoint (local_ip remote_ip : Nat) (endpoint_ptr : endpoint_tx_context) :
    Nat × endpoint_tx_context × List Effect :=
  if endpoint_ptr.pair_num = 0 then (0, endpoint_ptr, [])
  else
    match Delete_tx_pair_endpoint_loop local_ip remote_ip endpoint_ptr.pair_list with
    | some (ps, p) =>
        (1, { endpoint_ptr with pair_list := ps, pair_num := uint_dec endpoint_ptr.pair_num },
         [Effect.spin_lock_endpoint endpoint_ptr.addr, Effect.list_del_pair p.addr,
          Effect.kfree_pair p.addr, Effect.pair_num_dec endpoint_ptr.addr,
          Effect.spin_unlock_endpoint endpoint_ptr.addr])
    | none => (0, endpoint_ptr, [Effect.printk_cannot_delete])

/-! ## The kernel list primitive, on pointers -/

/-- A kernel `struct list_head`: the addresses held in `next` and `prev`. -/
structure list_head where
  next : Nat
  prev : Nat
  deriving DecidableEq, Repr

/-- Store `v` in the `next` field of the `list_head` at address `a`. -/
def set_next (m : Nat → list_head) (a v : Nat) : Nat → list_head :=
  fun x => if x = a then { m x with next := v } else m x

/-- Store `v` in the `prev` field of the `list_head` at address `a`. -/
def set_prev (m : Nat → list_head) (a v : Nat) : Nat → list_head :=
  fun x => if x = a then { m x with prev := v } else m x

/-- The kernel's `list_add_tail(new, head)`, that is
`__list_add(new, head->prev, head)`: with `prev = head->prev` and
`next = head`, the stores `next->prev = new`, `new->next = next`,
`new->prev = prev`, `prev->next = new`, in this order. No field of `new` is
read, and nothing is checked. -/
def list_add_tail (new head : Nat) (m : Nat → list_head) : Nat → list_head :=
  let prev := (m head).prev
  let next := head
  set_next (set_prev (set_next (set_prev m next new) new next) new prev) prev new

/-- The walk of `list_for_each_entry` from the entry at `cur`: the entries
visited until `head` is reached, `none` when it is not reached within `fuel`
further steps. -/
def list_for_each (m : Nat → list_head) (head : Nat) : Nat → Nat → Option (List Nat)
  | 0, cur => if cur = head then some [] else none
  | fuel + 1, cur =>
      if cur = head then some []
      else (list_for_each m head fuel (m cur).next).map (fun l => cur :: l)

/-- The entries `list_for_each_entry` visits in the list at `head`, starting
at `head->next`. -/
def list_entries (m : Nat → list_head) (head fuel : Nat) : Option (List Nat) :=
  list_for_each m head fuel (m head).next

/-- The address of the last entry of the list `l` that starts after `a`; `a`
itself when `l` is empty. -/
def last_from (a : Nat) : List Nat → Nat
  | [] => a
  | x :: xs => last_from x xs

/-- Following `next` from `a` visits the addresses of the list, in order. -/
def next_chain (m : Nat → list_head) : Nat → List Nat → Prop
  | _, [] => True
  | a, x :: xs => (m a).next = x ∧ next_chain m x xs

/-- The memory `m` holds at `head` a list whose entries are, in forward order,
at the addresses `l`: the head and the entries are distinct, `next` leads
from the head through the entries back to the head, and `head->prev` is the
last entry. -/
def holds_list (m : Nat → list_head) (head : Nat) (l : List Nat) : Prop :=
  (head :: l).Nodup ∧ next_chain m head (l ++ [head]) ∧ (m head).prev = last_from head l

/-- A memory in which every `list_head` is as `INIT_LIST_HEAD` leaves it:
`next` and `prev` point to the `list_head` itself. -/
def initialised_heads : Nat → list_head := fun a => { next := a, prev := a }

/-- The memory after the calls `list_add_tail(new, head)` for the nodes of
`news`, in this order. -/
def list_add_tail_all (head : Nat) (news : List Nat) (m : Nat → list_head) :
    Nat → list_head :=
  news.foldl (fun m new => list_add_tail new head m) m

/-! ## The registry as a state machine -/

/-- Apply `f` to the endpoint at position `i` of the endpoint list (the
endpoint an `endpoint_tx_context*` of the caller points to); a position past
the end changes nothing. -/
def modify_endpoint (f : endpoint_tx_context → endpoint_tx_context) :
    Nat → List endpoint_tx_context → List endpoint_tx_context
  | _, [] => []
  | 0, e :: rest => f e :: rest
  | i + 1, e :: rest => e :: modify_endpoint f i rest

/-- One call of a mutating registry function on a host.
* `insert_endpoint raw ip bw`: `Init_endpoint_tx_context(&raw, ip, bw)` on
  fresh storage `raw`, then `Insert_tx_endpoint(&raw, host)`;
* `insert_pair p`: `Insert_tx_pair(&p, host)`;
* `insert_pair_endpoint p i`: `Insert_tx_pair_endpoint(p, E)` with `E` the
  endpoint at position `i` of the host;
* `delete_pair_endpoint l r i`: `Delete_tx_pair_endpoint(l, r, E)` with `E`
  the endpoint at position `i` of the host. -/
inductive Op where
  | insert_endpoint (raw : endpoint_tx_context) (ip bw : Nat)
  | insert_pair (p : pair_tx_context)
  | insert_pair_endpoint (p : Option pair_tx_context) (i : Nat)
  | delete_pair_endpoint (local_ip remote_ip : Nat) (i : Nat)
  deriving DecidableEq, Repr

/-- The host after one operation. -/
def step (h : tx_context) : Op → tx_context
  | Op.insert_endpoint raw ip bw =>
      match (Init_endpoint_tx_context (some raw) ip bw).2.1 with
      | some e => (Insert_tx_endpoint e h).1
      | none => h
  | Op.insert_pair p => (Insert_tx_pair p h).1
  | Op.insert_pair_endpoint p i =>
      let f := fun e => (Insert_tx_pair_endpoint p (some e)).1.getD e
      { h with endpoint_list := modify_endpoint f i h.endpoint_list }
  | Op.delete_pair_endpoint l r i =>
      let f := fun e => (Delete_tx_pair_endpoint l r e).2.1
      { h with endpoint_list := modify_endpoint f i h.endpoint_list }

/-- The host after a sequence of operations, performed left to right. -/
def run (h : tx_context) (ops : List Op) : tx_context :=
  ops.foldl step h

/-- The operation goes through the host-level interface, that is, it is not a
direct call of `Insert_tx_pair_endpoint`. -/
def Op.via_host : Op → Bool
  | Op.insert_pair_endpoint _ _ => false
  | _ => true

/-! ## Lock discipline of an effect trace -/

/-- Check of a trace against the per-level lock discipline. `host` tells
whether `tx_lock` is held, `eps` lists the endpoints whose `endpoint_lock` is
held, `owner p` is the endpoint whose pair list links the pair `p`.
* a lock is taken only when free and released only when held;
* a mutation of the host's endpoint list or of `endpoint_num` needs `tx_lock`;
* a mutation of an endpoint's pair list or `pair_num` needs the
  `endpoint_lock` of that endpoint;
* at the end of the trace no lock is held. -/
def lock_discipline (owner : Nat → Option Nat) : Bool → List Nat → List Effect → Bool
  | host, eps, [] => !host && eps.isEmpty
  | host, eps, Effect.spin_lock_tx :: rest =>
      !host && lock_discipline owner true eps rest
  | host, eps, Effect.spin_unlock_tx :: rest =>
      host && lock_discipline owner false eps rest
  | host, eps, Effect.spin_lock_endpoint e :: rest =>
      !eps.contains e && lock_discipline owner host (e :: eps) rest
  | host, eps, Effect.spin_unlock_endpoint e :: rest =>
      eps.contains e && lock_discipline owner host (eps.erase e) rest
  | host, eps, Effect.list_add_tail_endpoint _ :: rest =>
      host && lock_discipline owner host eps rest
  | host, eps, Effect.list_del_endpoint _ :: rest =>
      host && lock_discipline owner host eps rest
  | host, eps, Effect.endpoint_num_inc :: rest =>
      host && lock_discipline owner host eps rest
  | host, eps, Effect.list_add_tail_pair _ e :: rest =>
      eps.contains e && lock_discipline owner host eps rest
  | host, eps, Effect.pair_num_inc e :: rest =>
      eps.contains e && lock_discipline owner host eps rest
  | host, eps, Effect.pair_num_dec e :: rest =>
      eps.contains e && lock_discipline owner host eps rest
  | host, eps, Effect.list_del_pair p :: rest =>
      (match owner p with
       | some e => eps.contains e
       | none => false) && lock_discipline owner host eps rest
  | host, eps, _ :: rest => lock_discipline owner host eps rest

/-- The endpoint of the list whose pair list links the pair at address `p`. -/
def pair_owner (es : List endpoint_tx_context) (p : Nat) : Option Nat :=
  (es.find? (fun e => (e.pair_list.map (fun q => q.addr)).contains p)).map (fun e => e.addr)

/-! ## An endpoint at the capacity of its counter -/

/-- The pair number `i` of `full_endpoint`: address `4096 + 64 * i`, local
address 1, remote address `i + 1`. -/
def full_endpoint_pair (i : Nat) : pair_tx_context :=
  { addr := 4096 + 64 * i, local_ip := 1, remote_ip := i + 1, guarantee_bw := 1,
    timer_interval := 100 }

/-- An endpoint with local address 1 that holds `2^32 - 1` pairs with the
distinct remote addresses `1 .. 2^32 - 1`, and whose `pair_num` is `2^32 - 1`,
the largest `unsigned int`. -/
def full_endpoint : endpoint_tx_context :=
  { addr := 512, local_ip := 1, guarantee_bw := 100,
    pair_list := (List.range 4294967295).map full_endpoint_pair,
    pair_num := 4294967295 }

/-! ## Predicates used by the statements -/

/-- The pair carries the key `(local_ip, remote_ip)` that
`Delete_tx_pair_endpoint` compares. -/
def pair_has_key (local_ip remote_ip : Nat) (p : pair_tx_context) : Prop :=
  p.local_ip = local_ip ∧ p.remote_ip = remote_ip

instance (local_ip remote_ip : Nat) (p : pair_tx_context) :
    Decidable (pair_has_key local_ip remote_ip p) := by
  unfold pair_has_key; infer_instance

/-- The endpoints of a list have pairwise distinct `local_ip`. -/
def distinct_local_ip (es : List endpoint_tx_context) : Prop :=
  es.Pairwise (fun a b => a.local_ip ≠ b.local_ip)

/-- The pairs of a list have pairwise distinct `remote_ip`. -/
def distinct_remote_ip (ps : List pair_tx_context) : Prop :=
  ps.Pairwise (fun a b => a.remote_ip ≠ b.remote_ip)

/-- Count invariant of one endpoint: `pair_num` is the length of `pair_list`. -/
def endpoint_count_inv (e : endpoint_tx_context) : Prop :=
  e.pair_num = e.pair_list.length

/-- Count invariant of a host: `endpoint_num` is the length of
`endpoint_list`, and every endpoint satisfies its own count invariant. -/
def tx_count_inv (h : tx_context) : Prop :=
  h.endpoint_num = h.endpoint_list.length ∧ ∀ e ∈ h.endpoint_list, endpoint_count_inv e

/-- Every counter of the host holds a value of type `unsigned int`. -/
def counters_in_range (h : tx_context) : Prop :=
  h.endpoint_num < UINT_MOD ∧ ∀ e ∈ h.endpoint_list, e.pair_num < UINT_MOD

/-- The operation is one of the three inserts. -/
def Op.is_insert : Op → Bool
  | Op.delete_pair_endpoint _ _ _ => false
  | _ => true

/-- The pair node is not linked into the pair list: no entry of the list is at
the pair's address. -/
def pair_not_linked (p : pair_tx_context) (ps : List pair_tx_context) : Prop :=
  ∀ q ∈ ps, q.addr ≠ p.addr

/-- The pair node is not linked under any endpoint of the host. -/
def pair_not_linked_in_host (p : pair_tx_context) (h : tx_context) : Prop :=
  ∀ e ∈ h.endpoint_list, pair_not_linked p e.pair_list

/-- The endpoint node is not linked into the endpoint list of the host. -/
def endpoint_not_linked (e : endpoint_tx_context) (h : tx_context) : Prop :=
  ∀ x ∈ h.endpoint_list, x.addr ≠ e.addr

/-- The first endpoint of the host with the pair's `local_ip`, the one
`Insert_tx_pair` inserts into, has a `pair_num` below `2^32 - 1`. -/
def first_match_has_room (p : pair_tx_context) (h : tx_context) : Prop :=
  ∀ e, h.endpoint_list.find? (fun x => x.local_ip == p.local_ip) = some e →
    e.pair_num + 1 < UINT_MOD

/-- The node the operation hands to `list_add_tail`, when it comes to that
call, is not linked in the host at the time: the endpoint for
`Insert_tx_endpoint`; the pair for `Insert_tx_pair` when some endpoint has the
pair's `local_ip`, and for `Insert_tx_pair_endpoint` when the pair is not
`NULL` and the endpoint is one of the host. -/
def Op.node_not_linked (h : tx_context) : Op → Prop
  | Op.insert_endpoint raw _ _ => endpoint_not_linked raw h
  | Op.insert_pair p =>
      (∃ e ∈ h.endpoint_list, e.local_ip = p.local_ip) → pair_not_linked_in_host p h
  | Op.insert_pair_endpoint (some p) i =>
      i < h.endpoint_list.length → pair_not_linked_in_host p h
  | Op.insert_pair_endpoint none _ => True
  | Op.delete_pair_endpoint _ _ _ => True

/-- The counter the operation increments is below `2^32 - 1`. -/
def Op.has_room (h : tx_context) : Op → Prop
  | Op.insert_endpoint _ _ _ => h.endpoint_num + 1 < UINT_MOD
  | Op.insert_pair p => first_match_has_room p h
  | Op.insert_pair_endpoint (some _) i =>
      ∀ e, h.endpoint_list[i]? = some e → e.pair_num + 1 < UINT_MOD
  | Op.insert_pair_endpoint none _ => True
  | Op.delete_pair_endpoint _ _ _ => True

/-- Along the run of `ops` from `h`, every insert links a node that is not
linked in the host at the time. -/
def fresh_run (h : tx_context) : List Op → Prop
  | [] => True
  | op :: ops => op.node_not_linked h ∧ fresh_run (step h op) ops

/-- Along the run of `ops` from `h`, every insert links a node that is not
linked in the host at the time and increments a counter that is below
`2^32 - 1`. -/
def admissible_run (h : tx_context) : List Op → Prop
  | [] => True
  | op :: ops => (op.node_not_linked h ∧ op.has_room h) ∧ admissible_run (step h op) ops

/-- Every pair stored under an endpoint carries that endpoint's `local_ip`. -/
def key_agreement (es : List endpoint_tx_context) : Prop :=
  ∀ e ∈ es, ∀ p ∈ e.pair_list, p.local_ip = e.local_ip

/-- An endpoint that comes after another endpoint with the same `local_ip`
holds no pair. -/
def shadowed_empty (es : List endpoint_tx_context) : Prop :=
  es.Pairwise (fun e1 e2 => e1.local_ip = e2.local_ip → e2.pair_list = [])

/-- The number of pairs the endpoints of the list hold in total: the sum of
the lengths of their pair lists. -/
def total_pairs (es : List endpoint_tx_context) : Nat :=
  (es.map (fun e => e.pair_list.length)).sum

/-- The lines of the diagnostic dump as the specification describes them: for
each endpoint, in list order, its line followed by one line per pair of that
endpoint, in list order. -/
def dump_lines (es : List endpoint_tx_context) : List Effect :=
  es.flatMap (fun e => Effect.print_endpoint e.addr ::
    e.pair_list.map (fun p => Effect.print_pair p.addr))

/-- The endpoint list `es'` lists the endpoints of `es` in the same order, each
with its pair list extended at the tail only, possibly followed by further
endpoints. -/
def appended_only : List endpoint_tx_context → List endpoint_tx_context → Prop
  | [], _ => True
  | _ :: _, [] => False
  | e :: es, e' :: es' =>
      e'.addr = e.addr ∧ e'.local_ip = e.local_ip ∧ e.pair_list <+: e'.pair_list ∧
        appended_only es es'

/-! ## Theorems -/

/-! ### `list_add_tail` on pointers -/

theorem set_next_next (m : Nat → list_head) (a v x : Nat) :
    (set_next m a v x).next = if x = a then v else (m x).next := by
  unfold set_next; split <;> rfl

theorem set_next_prev (m : Nat → list_head) (a v x : Nat) :
    (set_next m a v x).prev = (m x).prev := by
  unfold set_next; split <;> rfl

theorem set_prev_next (m : Nat → list_head) (a v x : Nat) :
    (set_prev m a v x).next = (m x).next := by
  unfold set_prev; split <;> rfl

theorem set_prev_prev (m : Nat → list_head) (a v x : Nat) :
    (set_prev m a v x).prev = if x = a then v else (m x).prev := by
  unfold set_prev; split <;> rfl

theorem list_add_tail_next (new head : Nat) (m : Nat → list_head) (x : Nat) :
    (list_add_tail new head m x).next =
      if x = (m head).prev then new else if x = new then head else (m x).next := by
  simp only [list_add_tail, set_next_next, set_prev_next]

theorem list_add_tail_prev_head (new head : Nat) (m : Nat → list_head) (h : head ≠ new) :
    (list_add_tail new head m head).prev = new := by
  simp only [list_add_tail, set_next_prev, set_prev_prev, if_neg h, if_true]

theorem last_from_mem (a : Nat) (l : List Nat) : last_from a l ∈ a :: l := by
  induction l generalizing a with
  | nil => simp [last_from]
  | cons x rest ih => exact List.mem_cons_of_mem _ (ih x)

theorem last_from_append (a n : Nat) (l : List Nat) : last_from a (l ++ [n]) = n := by
  induction l generalizing a with
  | nil => rfl
  | cons x rest ih => exact ih x

theorem next_chain_add (m m' : Nat → list_head) (new head : Nat) (a : Nat) (l : List Nat)
    (hm' : ∀ x, (m' x).next =
      if x = last_from a l then new else if x = new then head else (m x).next)
    (hc : next_chain m a (l ++ [head])) (hnd : (a :: l).Nodup) (hnew : new ∉ a :: l) :
    next_chain m' a (l ++ [new, head]) := by
  induction l generalizing a with
  | nil =>
      have hna : new ≠ a := fun h => hnew (by simp [h])
      refine ⟨?_, ?_, trivial⟩
      · rw [hm']; simp [last_from]
      · rw [hm']; simp [last_from, hna]
  | cons x rest ih =>
      obtain ⟨h1, h2⟩ := hc
      have hmem := last_from_mem x rest
      have hnd' := List.nodup_cons.mp hnd
      have ha1 : a ≠ last_from x rest := fun h => hnd'.1 (h ▸ hmem)
      have ha2 : a ≠ new := fun h => hnew (by simp [h])
      refine ⟨?_, ?_⟩
      · rw [hm']
        show (if a = last_from x rest then new else if a = new then head else (m a).next) = x
        rw [if_neg ha1, if_neg ha2, h1]
      · exact ih x hm' h2 hnd'.2 (fun h => hnew (List.mem_cons_of_mem _ h))

theorem list_add_tail_fresh (m : Nat → list_head) (head new : Nat) (l : List Nat)
    (h : holds_list m head l) (hnew : new ∉ head :: l) :
    holds_list (list_add_tail new head m) head (l ++ [new]) := by
  obtain ⟨h1, h2, h3⟩ := h
  have hne : head ≠ new := fun h => hnew (by simp [h])
  have hnl : new ∉ l := fun h => hnew (List.mem_cons_of_mem _ h)
  have h1' := List.nodup_cons.mp h1
  refine ⟨?_, ?_, ?_⟩
  · refine List.nodup_cons.mpr ⟨?_, ?_⟩
    · intro hin
      rcases List.mem_append.mp hin with hin | hin
      · exact h1'.1 hin
      · exact hne (List.mem_singleton.mp hin)
    · refine List.Nodup.append h1'.2 (List.nodup_singleton new) ?_
      intro y hy1 hy2
      rw [List.mem_singleton.mp hy2] at hy1
      exact hnl hy1
  · have := next_chain_add m (list_add_tail new head m) new head head l
      (by intro x; rw [list_add_tail_next, h3]) h2 h1 hnew
    rw [List.append_assoc]
    exact this
  · rw [list_add_tail_prev_head new head m hne, last_from_append]

theorem next_chain_for_each (m : Nat → list_head) (head a : Nat) (l : List Nat)
    (hc : next_chain m a (l ++ [head])) (hh : head ∉ l) :
    list_for_each m head l.length (m a).next = some l := by
  induction l generalizing a with
  | nil =>
      obtain ⟨h1, _⟩ := hc
      simp [list_for_each, h1]
  | cons x rest ih =>
      obtain ⟨h1, h2⟩ := hc
      have hx : x ≠ head := fun h => hh (by simp [h])
      have := ih x h2 (fun h => hh (List.mem_cons_of_mem _ h))
      simp [list_for_each, h1, hx, this]

theorem holds_list_entries (m : Nat → list_head) (head : Nat) (l : List Nat)
    (h : holds_list m head l) : list_entries m head l.length = some l :=
  next_chain_for_each m head head l h.2.1 (List.nodup_cons.mp h.1).1

theorem holds_list_init (head : Nat) : holds_list initialised_heads head [] := by
  refine ⟨by simp, ⟨rfl, trivial⟩, rfl⟩

/-- The kernel primitive appends: when the memory holds the list `l` at `head`
and `new` is neither the head nor an entry of `l`, after
`list_add_tail(new, head)` the memory holds `l ++ [new]` at `head`, and the
walk of `list_for_each_entry` visits exactly these entries. -/
theorem list_add_tail_appends (m : Nat → list_head) (head new : Nat) (l : List Nat)
    (h : holds_list m head l) (hnew : new ∉ head :: l) :
    holds_list (list_add_tail new head m) head (l ++ [new]) ∧
    list_entries (list_add_tail new head m) head (l.length + 1) = some (l ++ [new]) := by
  have h' := list_add_tail_fresh m head new l h hnew
  refine ⟨h', ?_⟩
  have := holds_list_entries _ head (l ++ [new]) h'
  rwa [List.length_append, List.length_singleton] at this

theorem list_add_tail_all_fresh (head : Nat) (news l : List Nat) (m : Nat → list_head)
    (h : holds_list m head l) (hnd : (head :: (l ++ news)).Nodup) :
    holds_list (list_add_tail_all head news m) head (l ++ news) := by
  induction news generalizing l m with
  | nil => simpa [list_add_tail_all] using h
  | cons n rest ih =>
      have hn : n ∉ head :: l := by
        intro hmem
        have hnd' : (head :: (l ++ n :: rest)).Nodup := hnd
        rw [List.nodup_cons, List.nodup_append] at hnd'
        rcases List.mem_cons.mp hmem with h1 | h1
        · exact hnd'.1 (by rw [← h1]; simp)
        · exact hnd'.2.2.2 h1 (by simp)
      have h1 := list_add_tail_fresh m head n l h hn
      have h2 := ih (l ++ [n]) (list_add_tail n head m) h1 (by simpa using hnd)
      simpa [list_add_tail_all] using h2

theorem find_first_local_ip (a : Nat) (es1 es2 : List endpoint_tx_context)
    (e : endpoint_tx_context) (he : e.local_ip = a) (h1 : ∀ x ∈ es1, x.local_ip ≠ a) :
    (es1 ++ e :: es2).find? (fun x => x.local_ip == a) = some e := by
  induction es1 with
  | nil => simp [he]
  | cons y rest ih =>
      have hy : (y.local_ip == a) = false := by simpa using h1 y (by simp)
      have h2 := ih (fun x hx => h1 x (by simp [hx]))
      show List.find? (fun x => x.local_ip == a) (y :: (rest ++ e :: es2)) = some e
      simp only [List.find?_cons, hy]
      exact h2

theorem Insert_tx_endpoint_refines (m : Nat → list_head) (head : Nat)
    (E : endpoint_tx_context) (H : tx_context)
    (hm : holds_list m head (H.endpoint_list.map (fun e => e.addr)))
    (hne : E.addr ≠ head) (hfresh : endpoint_not_linked E H) :
    holds_list (list_add_tail E.addr head m) head
      ((Insert_tx_endpoint E H).1.endpoint_list.map (fun e => e.addr)) := by
  have hnew : E.addr ∉ head :: H.endpoint_list.map (fun e => e.addr) := by
    intro hmem
    rcases List.mem_cons.mp hmem with h1 | h1
    · exact hne h1
    · obtain ⟨x, hx, hxa⟩ := List.mem_map.mp h1
      exact hfresh x hx hxa
  have := list_add_tail_fresh m head E.addr _ hm hnew
  have hl : (Insert_tx_endpoint E H).1.endpoint_list = H.endpoint_list ++ [E] := rfl
  rw [hl, List.map_append]
  exact this

theorem Insert_tx_pair_endpoint_refines (m : Nat → list_head) (head : Nat)
    (P : pair_tx_context) (E : endpoint_tx_context)
    (hm : holds_list m head (E.pair_list.map (fun p => p.addr)))
    (hne : P.addr ≠ head) (hfresh : pair_not_linked P E.pair_list) :
    holds_list (list_add_tail P.addr head m) head
      (((Insert_tx_pair_endpoint (some P) (some E)).1.getD E).pair_list.map
        (fun p => p.addr)) := by
  have hnew : P.addr ∉ head :: E.pair_list.map (fun p => p.addr) := by
    intro hmem
    rcases List.mem_cons.mp hmem with h1 | h1
    · exact hne h1
    · obtain ⟨x, hx, hxa⟩ := List.mem_map.mp h1
      exact hfresh x hx hxa
  have := list_add_tail_fresh m head P.addr _ hm hnew
  have hl : ((Insert_tx_pair_endpoint (some P) (some E)).1.getD E).pair_list =
      E.pair_list ++ [P] := rfl
  rw [hl, List.map_append]
  exact this

/-- What `list_add_tail` does to a node that is already linked, evaluated on
the head at address 1 and the entries `A`, `P`, `B` at 10, 20, 30.
* `[A, P, B]` and `P` again: the walk visits `[A, P]` only, `B` is lost.
* `[A, P]` and the tail `P` again: `P->next` is `P` itself and the walk never
  comes back to the head.
* `P` linked in the list at head 2, then added to the list `[A]` at head 1:
  the list at head 1 is `[A, P]`, and the walk of the list at head 2 goes
  to `P`, from there to the head 1, to `A` and to `P` again, and never comes
  back to its own head. -/
theorem list_add_tail_relinked :
    list_entries
      (list_add_tail 30 1 (list_add_tail 20 1 (list_add_tail 10 1 initialised_heads)))
      1 8 = some [10, 20, 30] ∧
    list_entries
      (list_add_tail 20 1
        (list_add_tail 30 1 (list_add_tail 20 1 (list_add_tail 10 1 initialised_heads))))
      1 8 = some [10, 20] ∧
    (list_add_tail 20 1 (list_add_tail 20 1 (list_add_tail 10 1 initialised_heads))
      20).next = 20 ∧
    list_entries
      (list_add_tail 20 1 (list_add_tail 20 1 (list_add_tail 10 1 initialised_heads)))
      1 8 = none ∧
    list_entries (list_add_tail 10 1 (list_add_tail 20 2 initialised_heads)) 2 8 =
      some [20] ∧
    list_entries
      (list_add_tail 20 1 (list_add_tail 10 1 (list_add_tail 20 2 initialised_heads)))
      1 8 = some [10, 20] ∧
    list_entries
      (list_add_tail 20 1 (list_add_tail 10 1 (list_add_tail 20 2 initialised_heads)))
      2 8 = none ∧
    [2, 20, 1, 10].map (fun a =>
      (list_add_tail 20 1 (list_add_tail 10 1 (list_add_tail 20 2 initialised_heads))
        a).next) = [20, 1, 10, 20] := by
  refine ⟨?_, ?_, ?_, ?_, ?_, ?_, ?_, ?_⟩ <;> rfl


theorem Insert_tx_pair_endpoint_some (p : pair_tx_context) (e : endpoint_tx_context) :
    Insert_tx_pair_endpoint (some p) (some e) =
      (some { e with pair_list := e.pair_list ++ [p], pair_num := uint_inc e.pair_num },
       [Effect.spin_lock_endpoint e.addr, Effect.list_add_tail_pair p.addr e.addr,
        Effect.pair_num_inc e.addr, Effect.spin_unlock_endpoint e.addr]) := rfl

theorem Search_tx_pair_inner_eq_none (b : Nat) (ps : List pair_tx_context) :
    Search_tx_pair_inner b ps = none ↔ ∀ q ∈ ps, q.remote_ip ≠ b := by
  induction ps with
  | nil => simp [Search_tx_pair_inner]
  | cons p rest ih =>
      by_cases hp : p.remote_ip = b
      · simp [Search_tx_pair_inner, hp]
      · simp [Search_tx_pair_inner, hp, ih]

theorem Search_tx_pair_inner_eq_some (b : Nat) (ps : List pair_tx_context)
    (p : pair_tx_context) (h : Search_tx_pair_inner b ps = some p) :
    ∃ ps1 ps2, ps = ps1 ++ p :: ps2 ∧ p.remote_ip = b ∧ ∀ q ∈ ps1, q.remote_ip ≠ b := by
  induction ps with
  | nil => simp [Search_tx_pair_inner] at h
  | cons x rest ih =>
      by_cases hx : x.remote_ip = b
      · simp [Search_tx_pair_inner, hx] at h
        subst h
        exact ⟨[], rest, rfl, hx, by simp⟩
      · simp [Search_tx_pair_inner, hx] at h
        obtain ⟨ps1, ps2, h1, h2, h3⟩ := ih h
        refine ⟨x :: ps1, ps2, by simp [h1], h2, ?_⟩
        intro q hq
        rcases List.mem_cons.mp hq with rfl | hq
        · exact hx
        · exact h3 q hq

theorem Search_tx_pair_inner_append_hit (b : Nat) (ps1 ps2 : List pair_tx_context)
    (p : pair_tx_context) (hp : p.remote_ip = b) (h : ∀ q ∈ ps1, q.remote_ip ≠ b) :
    Search_tx_pair_inner b (ps1 ++ p :: ps2) = some p := by
  induction ps1 with
  | nil => simp [Search_tx_pair_inner, hp]
  | cons x rest ih =>
      have hx : x.remote_ip ≠ b := h x (by simp)
      simp only [List.cons_append, Search_tx_pair_inner, hx, if_false]
      exact ih (fun q hq => h q (by simp [hq]))

theorem Search_tx_pair_outer_eq_none (a b : Nat) (es : List endpoint_tx_context) :
    Search_tx_pair_outer a b es = none ↔
      ∀ e ∈ es, e.local_ip = a → ∀ q ∈ e.pair_list, q.remote_ip ≠ b := by
  induction es with
  | nil => simp [Search_tx_pair_outer]
  | cons e rest ih =>
      by_cases he : e.local_ip = a
      · cases hin : Search_tx_pair_inner b e.pair_list with
        | none =>
            have := (Search_tx_pair_inner_eq_none b e.pair_list).mp hin
            simp only [Search_tx_pair_outer, he, if_true, hin, ih, List.mem_cons,
              forall_eq_or_imp]
            constructor
            · intro h; exact ⟨fun _ => this, h⟩
            · intro h; exact h.2
        | some p =>
            obtain ⟨ps1, ps2, h1, h2, _⟩ := Search_tx_pair_inner_eq_some b e.pair_list p hin
            simp only [Search_tx_pair_outer, he, if_true, hin, List.mem_cons,
              forall_eq_or_imp]
            constructor
            · intro h; cases h
            · intro h
              exact absurd h2 (h.1 trivial p (by simp [h1]))
      · simp only [Search_tx_pair_outer, he, if_false, ih, List.mem_cons, forall_eq_or_imp]
        constructor
        · intro h; exact ⟨fun h' => h'.elim, h⟩
        · intro h; exact h.2

theorem Search_tx_pair_outer_eq_some (a b : Nat) (es : List endpoint_tx_context)
    (p : pair_tx_context) (h : Search_tx_pair_outer a b es = some p) :
    ∃ es1 e es2 ps1 ps2, es = es1 ++ e :: es2 ∧ e.local_ip = a ∧
      e.pair_list = ps1 ++ p :: ps2 ∧ p.remote_ip = b ∧
      (∀ q ∈ ps1, q.remote_ip ≠ b) ∧
      (∀ e' ∈ es1, e'.local_ip = a → ∀ q ∈ e'.pair_list, q.remote_ip ≠ b) := by
  induction es with
  | nil => simp [Search_tx_pair_outer] at h
  | cons e rest ih =>
      have lift : Search_tx_pair_outer a b rest = some p →
          (e.local_ip = a → ∀ q ∈ e.pair_list, q.remote_ip ≠ b) →
          ∃ es1 e0 es2 ps1 ps2, e :: rest = es1 ++ e0 :: es2 ∧ e0.local_ip = a ∧
            e0.pair_list = ps1 ++ p :: ps2 ∧ p.remote_ip = b ∧
            (∀ q ∈ ps1, q.remote_ip ≠ b) ∧
            (∀ e' ∈ es1, e'.local_ip = a → ∀ q ∈ e'.pair_list, q.remote_ip ≠ b) := by
        intro hr hmiss
        obtain ⟨es1, e0, es2, ps1, ps2, h1, h2, h3, h4, h5, h6⟩ := ih hr
        refine ⟨e :: es1, e0, es2, ps1, ps2, by simp [h1], h2, h3, h4, h5, ?_⟩
        intro e' he'
        rcases List.mem_cons.mp he' with rfl | he'
        · exact hmiss
        · exact h6 e' he'
      by_cases he : e.local_ip = a
      · cases hin : Search_tx_pair_inner b e.pair_list with
        | none =>
            simp only [Search_tx_pair_outer, he, if_true, hin] at h
            exact lift h (fun _ => (Search_tx_pair_inner_eq_none b e.pair_list).mp hin)
        | some p0 =>
            simp only [Search_tx_pair_outer, he, if_true, hin] at h
            cases h
            obtain ⟨ps1, ps2, h1, h2, h3⟩ := Search_tx_pair_inner_eq_some b e.pair_list p hin
            exact ⟨[], e, rest, ps1, ps2, rfl, he, h1, h2, h3, by simp⟩
      · simp only [Search_tx_pair_outer, he, if_false] at h
        exact lift h (fun h' => absurd h' he)

theorem Insert_tx_pair_loop_hit (P : pair_tx_context) (e : endpoint_tx_context)
    (rest : List endpoint_tx_context) (he : e.local_ip = P.local_ip) :
    Insert_tx_pair_loop P (e :: rest) =
      some ({ e with pair_list := e.pair_list ++ [P], pair_num := uint_inc e.pair_num } :: rest,
        [Effect.spin_lock_endpoint e.addr, Effect.list_add_tail_pair P.addr e.addr,
         Effect.pair_num_inc e.addr, Effect.spin_unlock_endpoint e.addr]) := by
  rw [Insert_tx_pair_loop, if_pos he]
  rfl

theorem Insert_tx_pair_loop_skip (P : pair_tx_context) (e : endpoint_tx_context)
    (rest : List endpoint_tx_context) (he : e.local_ip ≠ P.local_ip) :
    Insert_tx_pair_loop P (e :: rest) =
      (Insert_tx_pair_loop P rest).map (fun r => (e :: r.1, r.2)) := by
  rw [Insert_tx_pair_loop, if_neg he]
  cases Insert_tx_pair_loop P rest <;> rfl

theorem Insert_tx_pair_loop_then_search (P : pair_tx_context) (es : List endpoint_tx_context)
    (hd : distinct_local_ip es)
    (hp : ∃ e ∈ es, e.local_ip = P.local_ip ∧ ∀ q ∈ e.pair_list, q.remote_ip ≠ P.remote_ip) :
    ∃ es' tr, Insert_tx_pair_loop P es = some (es', tr) ∧
      Search_tx_pair_outer P.local_ip P.remote_ip es' = some P := by
  induction es with
  | nil => obtain ⟨e, he, _⟩ := hp; cases he
  | cons e rest ih =>
      obtain ⟨e0, he0, hip, hfree⟩ := hp
      have hd' := List.pairwise_cons.mp hd
      by_cases he : e.local_ip = P.local_ip
      · have hfree_e : ∀ q ∈ e.pair_list, q.remote_ip ≠ P.remote_ip := by
          rcases List.mem_cons.mp he0 with rfl | hin
          · exact hfree
          · exact absurd (he.trans hip.symm) (hd'.1 e0 hin)
        refine ⟨_, _, Insert_tx_pair_loop_hit P e rest he, ?_⟩
        have hs : Search_tx_pair_inner P.remote_ip (e.pair_list ++ [P]) = some P :=
          Search_tx_pair_inner_append_hit P.remote_ip e.pair_list [] P rfl hfree_e
        simp [Search_tx_pair_outer, he, hs]
      · have hin : e0 ∈ rest := by
          rcases List.mem_cons.mp he0 with rfl | hin
          · exact absurd hip he
          · exact hin
        obtain ⟨es', tr, h1, h2⟩ := ih hd'.2 ⟨e0, hin, hip, hfree⟩
        refine ⟨e :: es', tr, by simp [Insert_tx_pair_loop_skip P e rest he, h1], ?_⟩
        simp [Search_tx_pair_outer, he, h2]

/-- C1 (insert then find): in a host whose endpoints have pairwise distinct
`local_ip`, if some endpoint has the pair's `local_ip` and holds no pair with
the pair's `remote_ip`, then after `Insert_tx_pair P H` the lookup
`Search_tx_pair` with the key `(P.local_ip, P.remote_ip)` returns `P` itself
(address included), not `NULL` and no other pair. -/
theorem Insert_tx_pair_then_Search_tx_pair (H : tx_context) (P : pair_tx_context)
    (hd : distinct_local_ip H.endpoint_list)
    (hp : ∃ e ∈ H.endpoint_list, e.local_ip = P.local_ip ∧
        ∀ q ∈ e.pair_list, q.remote_ip ≠ P.remote_ip) :
    (Search_tx_pair (Insert_tx_pair P H).1 P.local_ip P.remote_ip).1 = some P := by
  obtain ⟨es', tr, h1, h2⟩ := Insert_tx_pair_loop_then_search P H.endpoint_list hd hp
  simp [Search_tx_pair, Insert_tx_pair, h1, h2]

/-- Scenario A of the specification: host with the single endpoint 10.0.0.1
(guarantee 100), pair 10.0.0.1 → 10.0.0.2 (guarantee 40). -/
theorem Insert_tx_pair_then_Search_tx_pair_witness :
    (Search_tx_pair
      (Insert_tx_pair
        { addr := 4096, local_ip := 167772161, remote_ip := 167772162, guarantee_bw := 40,
          timer_interval := 100 }
        { endpoint_list := [{ addr := 512, local_ip := 167772161, guarantee_bw := 100,
                              pair_list := [], pair_num := 0 }],
          endpoint_num := 1 }).1
      167772161 167772162).1 =
      some { addr := 4096, local_ip := 167772161, remote_ip := 167772162, guarantee_bw := 40,
             timer_interval := 100 } :=
  Insert_tx_pair_then_Search_tx_pair
    { endpoint_list := [{ addr := 512, local_ip := 167772161, guarantee_bw := 100,
                          pair_list := [], pair_num := 0 }],
      endpoint_num := 1 }
    { addr := 4096, local_ip := 167772161, remote_ip := 167772162, guarantee_bw := 40,
      timer_interval := 100 }
    (by simp [distinct_local_ip])
    ⟨{ addr := 512, local_ip := 167772161, guarantee_bw := 100, pair_list := [],
       pair_num := 0 }, by simp, rfl, by simp⟩

/-- C2 (two-level lookup): `Search_tx_pair` returns `NULL` exactly when no
endpoint with the given `local_ip` holds a pair with the given `remote_ip`;
a pair it returns sits in an endpoint `e` with `e.local_ip = local_ip`, has
`remote_ip` equal to the argument, is the first such pair of `e`, and no
endpoint before `e` with that `local_ip` holds a pair with that `remote_ip`;
the host is left as it was and no side effect is performed. -/
theorem Search_tx_pair_two_level_lookup (H : tx_context) (local_ip remote_ip : Nat) :
    ((Search_tx_pair H local_ip remote_ip).1 = none ↔
      ∀ e ∈ H.endpoint_list, e.local_ip = local_ip →
        ∀ q ∈ e.pair_list, q.remote_ip ≠ remote_ip) ∧
    (∀ p, (Search_tx_pair H local_ip remote_ip).1 = some p →
      ∃ es1 e es2 ps1 ps2, H.endpoint_list = es1 ++ e :: es2 ∧ e.local_ip = local_ip ∧
        e.pair_list = ps1 ++ p :: ps2 ∧ p.remote_ip = remote_ip ∧
        (∀ q ∈ ps1, q.remote_ip ≠ remote_ip) ∧
        (∀ e' ∈ es1, e'.local_ip = local_ip →
          ∀ q ∈ e'.pair_list, q.remote_ip ≠ remote_ip)) ∧
    (Search_tx_pair H local_ip remote_ip).2.1 = H ∧
    (Search_tx_pair H local_ip remote_ip).2.2 = [] :=
  ⟨Search_tx_pair_outer_eq_none local_ip remote_ip H.endpoint_list,
   fun p h => Search_tx_pair_outer_eq_some local_ip remote_ip H.endpoint_list p h,
   rfl, rfl⟩

/-! ### The loops of `Insert_tx_pair` and `Delete_tx_pair_endpoint` -/

theorem Insert_tx_pair_loop_eq_none (P : pair_tx_context) (es : List endpoint_tx_context) :
    Insert_tx_pair_loop P es = none ↔ ∀ e ∈ es, e.local_ip ≠ P.local_ip := by
  induction es with
  | nil => simp [Insert_tx_pair_loop]
  | cons e rest ih =>
      by_cases he : e.local_ip = P.local_ip
      · rw [Insert_tx_pair_loop_hit P e rest he]
        simp [he]
      · rw [Insert_tx_pair_loop_skip P e rest he]
        simp [he, ih]

theorem Insert_tx_pair_loop_eq_some (P : pair_tx_context) (es es' : List endpoint_tx_context)
    (tr : List Effect) (h : Insert_tx_pair_loop P es = some (es', tr)) :
    ∃ es1 e es2, es = es1 ++ e :: es2 ∧ e.local_ip = P.local_ip ∧
      (∀ x ∈ es1, x.local_ip ≠ P.local_ip) ∧
      es' = es1 ++ { e with pair_list := e.pair_list ++ [P],
                            pair_num := uint_inc e.pair_num } :: es2 ∧
      tr = [Effect.spin_lock_endpoint e.addr, Effect.list_add_tail_pair P.addr e.addr,
            Effect.pair_num_inc e.addr, Effect.spin_unlock_endpoint e.addr] := by
  induction es generalizing es' tr with
  | nil => simp [Insert_tx_pair_loop] at h
  | cons e rest ih =>
      by_cases he : e.local_ip = P.local_ip
      · rw [Insert_tx_pair_loop_hit P e rest he] at h
        simp only [Option.some.injEq, Prod.mk.injEq] at h
        exact ⟨[], e, rest, rfl, he, by simp, h.1.symm, h.2.symm⟩
      · rw [Insert_tx_pair_loop_skip P e rest he] at h
        cases hr : Insert_tx_pair_loop P rest with
        | none => simp [hr] at h
        | some r =>
            obtain ⟨r1, r2⟩ := r
            simp only [hr, Option.map_some', Option.some.injEq, Prod.mk.injEq] at h
            obtain ⟨es1, e0, es2, h1, h2, h3, h4, h5⟩ := ih r1 r2 hr
            refine ⟨e :: es1, e0, es2, by simp [h1], h2, ?_, ?_, ?_⟩
            · intro x hx
              rcases List.mem_cons.mp hx with rfl | hx
              · exact he
              · exact h3 x hx
            · rw [← h.1, h4]; rfl
            · rw [← h.2, h5]

theorem Delete_tx_pair_endpoint_loop_eq_none (l r : Nat) (ps : List pair_tx_context) :
    Delete_tx_pair_endpoint_loop l r ps = none ↔ ∀ x ∈ ps, ¬ pair_has_key l r x := by
  induction ps with
  | nil => simp [Delete_tx_pair_endpoint_loop]
  | cons p rest ih =>
      by_cases hp : p.local_ip = l ∧ p.remote_ip = r
      · simp only [Delete_tx_pair_endpoint_loop, if_pos hp, List.mem_cons, forall_eq_or_imp,
          pair_has_key]
        constructor
        · intro h; cases h
        · intro h; exact absurd hp h.1
      · cases hr : Delete_tx_pair_endpoint_loop l r rest with
        | none =>
            simp only [Delete_tx_pair_endpoint_loop, if_neg hp, hr, List.mem_cons,
              forall_eq_or_imp, pair_has_key, true_iff]
            exact ⟨hp, ih.mp hr⟩
        | some v =>
            obtain ⟨v1, v2⟩ := v
            simp only [Delete_tx_pair_endpoint_loop, if_neg hp, hr, List.mem_cons,
              forall_eq_or_imp]
            constructor
            · intro h; cases h
            · intro h
              have := ih.mpr h.2
              rw [hr] at this
              cases this

theorem Delete_tx_pair_endpoint_loop_eq_some (l r : Nat) (ps ps' : List pair_tx_context)
    (q : pair_tx_context) (h : Delete_tx_pair_endpoint_loop l r ps = some (ps', q)) :
    ∃ ps1 ps2, ps = ps1 ++ q :: ps2 ∧ ps' = ps1 ++ ps2 ∧ pair_has_key l r q ∧
      ∀ x ∈ ps1, ¬ pair_has_key l r x := by
  induction ps generalizing ps' with
  | nil => simp [Delete_tx_pair_endpoint_loop] at h
  | cons p rest ih =>
      by_cases hp : p.local_ip = l ∧ p.remote_ip = r
      · simp only [Delete_tx_pair_endpoint_loop, if_pos hp, Option.some.injEq,
          Prod.mk.injEq] at h
        obtain ⟨h1, h2⟩ := h
        subst h1 h2
        exact ⟨[], rest, rfl, rfl, hp, by simp⟩
      · cases hr : Delete_tx_pair_endpoint_loop l r rest with
        | none => simp [Delete_tx_pair_endpoint_loop, if_neg hp, hr] at h
        | some v =>
            obtain ⟨v1, v2⟩ := v
            simp only [Delete_tx_pair_endpoint_loop, if_neg hp, hr, Option.some.injEq,
              Prod.mk.injEq] at h
            obtain ⟨h1, h2⟩ := h
            subst h1 h2
            obtain ⟨ps1, ps2, e1, e2, e3, e4⟩ := ih v1 hr
            refine ⟨p :: ps1, ps2, by simp [e1], by simp [e2], e3, ?_⟩
            intro x hx
            rcases List.mem_cons.mp hx with rfl | hx
            · exact hp
            · exact e4 x hx

theorem Delete_tx_pair_endpoint_loop_first (l r : Nat) (ps1 ps2 : List pair_tx_context)
    (q : pair_tx_context) (hq : pair_has_key l r q) (h : ∀ x ∈ ps1, ¬ pair_has_key l r x) :
    Delete_tx_pair_endpoint_loop l r (ps1 ++ q :: ps2) = some (ps1 ++ ps2, q) := by
  induction ps1 with
  | nil =>
      have hq' : q.local_ip = l ∧ q.remote_ip = r := hq
      simp [Delete_tx_pair_endpoint_loop, hq']
  | cons x rest ih =>
      have hx : ¬ (x.local_ip = l ∧ x.remote_ip = r) := h x (by simp)
      have ih' := ih (fun y hy => h y (by simp [hy]))
      rw [List.cons_append, Delete_tx_pair_endpoint_loop, if_neg hx, ih']
      rfl

theorem uint_dec_of_pos (n : Nat) (h0 : n ≠ 0) (h : n < UINT_MOD) : uint_dec n + 1 = n := by
  unfold uint_dec
  unfold UINT_MOD at *
  omega

theorem uint_inc_of_lt (n : Nat) (h : n + 1 < UINT_MOD) : uint_inc n = n + 1 := by
  unfold uint_inc
  exact Nat.mod_eq_of_lt h

theorem uint_inc_lt (n : Nat) : uint_inc n < UINT_MOD :=
  Nat.mod_lt _ (by decide)

theorem uint_dec_lt (n : Nat) : uint_dec n < UINT_MOD :=
  Nat.mod_lt _ (by decide)

theorem Delete_tx_pair_endpoint_of_zero (l r : Nat) (e : endpoint_tx_context)
    (h : e.pair_num = 0) : Delete_tx_pair_endpoint l r e = (0, e, []) := by
  simp [Delete_tx_pair_endpoint, h]

theorem Delete_tx_pair_endpoint_of_miss (l r : Nat) (e : endpoint_tx_context)
    (h0 : e.pair_num ≠ 0) (h : ∀ x ∈ e.pair_list, ¬ pair_has_key l r x) :
    Delete_tx_pair_endpoint l r e = (0, e, [Effect.printk_cannot_delete]) := by
  have hl := (Delete_tx_pair_endpoint_loop_eq_none l r e.pair_list).mpr h
  simp [Delete_tx_pair_endpoint, h0, hl]

theorem Delete_tx_pair_endpoint_of_hit (l r : Nat) (e : endpoint_tx_context)
    (ps1 ps2 : List pair_tx_context) (q : pair_tx_context)
    (h0 : e.pair_num ≠ 0) (hl : e.pair_list = ps1 ++ q :: ps2) (hq : pair_has_key l r q)
    (h : ∀ x ∈ ps1, ¬ pair_has_key l r x) :
    Delete_tx_pair_endpoint l r e =
      (1, { e with pair_list := ps1 ++ ps2, pair_num := uint_dec e.pair_num },
       [Effect.spin_lock_endpoint e.addr, Effect.list_del_pair q.addr,
        Effect.kfree_pair q.addr, Effect.pair_num_dec e.addr,
        Effect.spin_unlock_endpoint e.addr]) := by
  have h1 := Delete_tx_pair_endpoint_loop_first l r ps1 ps2 q hq h
  rw [← hl] at h1
  simp [Delete_tx_pair_endpoint, h0, h1]

theorem Delete_tx_pair_endpoint_of_no_key (l r : Nat) (e : endpoint_tx_context)
    (h : ∀ x ∈ e.pair_list, ¬ pair_has_key l r x) :
    (Delete_tx_pair_endpoint l r e).1 = 0 ∧ (Delete_tx_pair_endpoint l r e).2.1 = e := by
  by_cases h0 : e.pair_num = 0
  · rw [Delete_tx_pair_endpoint_of_zero l r e h0]
    exact ⟨rfl, rfl⟩
  · rw [Delete_tx_pair_endpoint_of_miss l r e h0 h]
    exact ⟨rfl, rfl⟩

theorem exists_first_key (l r : Nat) (ps : List pair_tx_context)
    (h : ∃ p ∈ ps, pair_has_key l r p) :
    ∃ ps1 q ps2, ps = ps1 ++ q :: ps2 ∧ pair_has_key l r q ∧
      ∀ x ∈ ps1, ¬ pair_has_key l r x := by
  cases hr : Delete_tx_pair_endpoint_loop l r ps with
  | none =>
      obtain ⟨p, hp, hk⟩ := h
      exact absurd hk ((Delete_tx_pair_endpoint_loop_eq_none l r ps).mp hr p hp)
  | some v =>
      obtain ⟨ps', q⟩ := v
      obtain ⟨ps1, ps2, h1, _, h3, h4⟩ := Delete_tx_pair_endpoint_loop_eq_some l r ps ps' q hr
      exact ⟨ps1, q, ps2, h1, h3, h4⟩

/-! ### `Delete_tx_pair_endpoint` -/

/-- C7 (delete miss): when the endpoint holds no pair whose own `local_ip` and
`remote_ip` equal the arguments, or when its `pair_num` is 0,
`Delete_tx_pair_endpoint` returns 0, leaves the endpoint (pair list, `pair_num`
and every other field) exactly as it was, and performs no effect other than,
possibly, the diagnostic. -/
theorem Delete_tx_pair_endpoint_miss (local_ip remote_ip : Nat) (E : endpoint_tx_context)
    (hmiss : (∀ p ∈ E.pair_list, ¬ pair_has_key local_ip remote_ip p) ∨ E.pair_num = 0) :
    (Delete_tx_pair_endpoint local_ip remote_ip E).1 = 0 ∧
    (Delete_tx_pair_endpoint local_ip remote_ip E).2.1 = E ∧
    (Delete_tx_pair_endpoint local_ip remote_ip E).2.1.pair_list = E.pair_list ∧
    (Delete_tx_pair_endpoint local_ip remote_ip E).2.1.pair_num = E.pair_num ∧
    ∀ ev ∈ (Delete_tx_pair_endpoint local_ip remote_ip E).2.2,
      ev = Effect.printk_cannot_delete := by
  by_cases h0 : E.pair_num = 0
  · rw [Delete_tx_pair_endpoint_of_zero local_ip remote_ip E h0]
    simp
  · have hm : ∀ p ∈ E.pair_list, ¬ pair_has_key local_ip remote_ip p := by
      rcases hmiss with h | h
      · exact h
      · exact absurd h h0
    rw [Delete_tx_pair_endpoint_of_miss local_ip remote_ip E h0 hm]
    simp

/-- A delete of the key (10.0.0.1, 10.0.0.3) from an endpoint that holds only
the pair 10.0.0.1 → 10.0.0.2. -/
theorem Delete_tx_pair_endpoint_miss_witness :
    (Delete_tx_pair_endpoint 167772161 167772163
      { addr := 512, local_ip := 167772161, guarantee_bw := 100,
        pair_list := [{ addr := 4096, local_ip := 167772161, remote_ip := 167772162,
                        guarantee_bw := 40, timer_interval := 100 }],
        pair_num := 1 }).1 = 0 :=
  (Delete_tx_pair_endpoint_miss 167772161 167772163
    { addr := 512, local_ip := 167772161, guarantee_bw := 100,
      pair_list := [{ addr := 4096, local_ip := 167772161, remote_ip := 167772162,
                      guarantee_bw := 40, timer_interval := 100 }],
      pair_num := 1 }
    (Or.inl (by simp [pair_has_key]))).1

/-- C8 (delete hit): for an endpoint whose `pair_num` (an `unsigned int`) is
the length of its pair list and that holds a pair with the given `local_ip`
and `remote_ip`, `Delete_tx_pair_endpoint` returns 1; the pair list splits as
`ps1 ++ p :: ps2` with `p` the first pair carrying the key, and the resulting
list is `ps1 ++ ps2`; `pair_num` is the old value minus 1; `addr`, `local_ip`
and `guarantee_bw` are unchanged. -/
theorem Delete_tx_pair_endpoint_hit (local_ip remote_ip : Nat) (E : endpoint_tx_context)
    (hcount : endpoint_count_inv E) (hrange : E.pair_num < UINT_MOD)
    (hhit : ∃ p ∈ E.pair_list, pair_has_key local_ip remote_ip p) :
    (Delete_tx_pair_endpoint local_ip remote_ip E).1 = 1 ∧
    (∃ ps1 p ps2, E.pair_list = ps1 ++ p :: ps2 ∧ pair_has_key local_ip remote_ip p ∧
      (∀ x ∈ ps1, ¬ pair_has_key local_ip remote_ip x) ∧
      (Delete_tx_pair_endpoint local_ip remote_ip E).2.1.pair_list = ps1 ++ ps2) ∧
    (Delete_tx_pair_endpoint local_ip remote_ip E).2.1.pair_num + 1 = E.pair_num ∧
    (Delete_tx_pair_endpoint local_ip remote_ip E).2.1.pair_num = E.pair_num - 1 ∧
    (Delete_tx_pair_endpoint local_ip remote_ip E).2.1.local_ip = E.local_ip ∧
    (Delete_tx_pair_endpoint local_ip remote_ip E).2.1.guarantee_bw = E.guarantee_bw ∧
    (Delete_tx_pair_endpoint local_ip remote_ip E).2.1.addr = E.addr := by
  obtain ⟨ps1, q, ps2, hl, hq, hfirst⟩ := exists_first_key local_ip remote_ip E.pair_list hhit
  have h0 : E.pair_num ≠ 0 := by
    have : E.pair_num = E.pair_list.length := hcount
    rw [this, hl]
    simp
  rw [Delete_tx_pair_endpoint_of_hit local_ip remote_ip E ps1 ps2 q h0 hl hq hfirst]
  have hdec := uint_dec_of_pos E.pair_num h0 hrange
  refine ⟨rfl, ⟨ps1, q, ps2, hl, hq, hfirst, rfl⟩, hdec, ?_, rfl, rfl, rfl⟩
  show uint_dec E.pair_num = E.pair_num - 1
  omega

/-- A delete of the key (10.0.0.1, 10.0.0.2) from an endpoint that holds the
pairs 10.0.0.1 → 10.0.0.3 and 10.0.0.1 → 10.0.0.2. -/
theorem Delete_tx_pair_endpoint_hit_witness :
    (Delete_tx_pair_endpoint 167772161 167772162
      { addr := 512, local_ip := 167772161, guarantee_bw := 100,
        pair_list := [{ addr := 4096, local_ip := 167772161, remote_ip := 167772163,
                        guarantee_bw := 40, timer_interval := 100 },
                      { addr := 8192, local_ip := 167772161, remote_ip := 167772162,
                        guarantee_bw := 40, timer_interval := 100 }],
        pair_num := 2 }).1 = 1 :=
  (Delete_tx_pair_endpoint_hit 167772161 167772162
    { addr := 512, local_ip := 167772161, guarantee_bw := 100,
      pair_list := [{ addr := 4096, local_ip := 167772161, remote_ip := 167772163,
                      guarantee_bw := 40, timer_interval := 100 },
                    { addr := 8192, local_ip := 167772161, remote_ip := 167772162,
                      guarantee_bw := 40, timer_interval := 100 }],
      pair_num := 2 }
    rfl (by decide) (by simp [pair_has_key])).1

theorem full_endpoint_pair_list :
    full_endpoint.pair_list = (List.range 4294967295).map full_endpoint_pair := by
  simp only [full_endpoint]

theorem full_endpoint_pair_num : full_endpoint.pair_num = 4294967295 := by
  simp only [full_endpoint]

theorem full_endpoint_count : endpoint_count_inv full_endpoint := by
  unfold endpoint_count_inv
  rw [full_endpoint_pair_list, full_endpoint_pair_num, List.length_map, List.length_range]

theorem full_endpoint_remote_ip_pos (p : pair_tx_context) (hp : p ∈ full_endpoint.pair_list) :
    p.local_ip = 1 ∧ p.remote_ip ≠ 0 := by
  rw [full_endpoint_pair_list, List.mem_map] at hp
  obtain ⟨i, _, rfl⟩ := hp
  exact ⟨rfl, Nat.succ_ne_zero i⟩

/-- C9 as stated fails at the capacity of the counter: `full_endpoint` satisfies
`pair_num = length of pair_list` (both `2^32 - 1`) and holds no pair with the
key (1, 0); inserting the pair 1 → 0 wraps `pair_num` to 0, so the delete of
(1, 0) that follows returns 0 instead of 1, the pair stays in the list, and
`pair_num` is 0 instead of the value `2^32 - 1` it had before the insert. -/
theorem Insert_Delete_round_trip_counterexample :
    endpoint_count_inv full_endpoint ∧
    full_endpoint.pair_num < UINT_MOD ∧
    (∀ p ∈ full_endpoint.pair_list, ¬ pair_has_key 1 0 p) ∧
    (Delete_tx_pair_endpoint 1 0
      ((Insert_tx_pair_endpoint
        (some { addr := 64, local_ip := 1, remote_ip := 0, guarantee_bw := 1,
                timer_interval := 100 })
        (some full_endpoint)).1.getD full_endpoint)).1 = 0 ∧
    (Delete_tx_pair_endpoint 1 0
      ((Insert_tx_pair_endpoint
        (some { addr := 64, local_ip := 1, remote_ip := 0, guarantee_bw := 1,
                timer_interval := 100 })
        (some full_endpoint)).1.getD full_endpoint)).2.1.pair_num = 0 ∧
    full_endpoint.pair_num = 4294967295 := by
  have hz : ((Insert_tx_pair_endpoint
        (some { addr := 64, local_ip := 1, remote_ip := 0, guarantee_bw := 1,
                timer_interval := 100 })
        (some full_endpoint)).1.getD full_endpoint).pair_num = 0 := rfl
  refine ⟨full_endpoint_count, by decide, ?_, ?_, ?_, rfl⟩
  · intro p hp hk
    exact (full_endpoint_remote_ip_pos p hp).2 hk.2
  · rw [Delete_tx_pair_endpoint_of_zero 1 0 _ hz]
  · rw [Delete_tx_pair_endpoint_of_zero 1 0 _ hz]
    exact hz

/-- C9, amended (insert/delete round trip below the capacity of the counter):
for an endpoint with `pair_num + 1 < 2^32` (in particular one with
`pair_num = length of pair_list < 2^32 - 1`) that holds no pair with the key
of `P`, `Insert_tx_pair_endpoint P E` followed by
`Delete_tx_pair_endpoint P.local_ip P.remote_ip` returns 1 and gives back the
endpoint as it was before the insert (pair list, `pair_num` and all other
fields); a second identical delete returns 0 and changes nothing. -/
theorem Insert_Delete_round_trip (P : pair_tx_context) (E : endpoint_tx_context)
    (hroom : E.pair_num + 1 < UINT_MOD)
    (hfresh : ∀ p ∈ E.pair_list, ¬ pair_has_key P.local_ip P.remote_ip p) :
    ∃ E1, (Insert_tx_pair_endpoint (some P) (some E)).1 = some E1 ∧
      (Delete_tx_pair_endpoint P.local_ip P.remote_ip E1).1 = 1 ∧
      (Delete_tx_pair_endpoint P.local_ip P.remote_ip E1).2.1 = E ∧
      (Delete_tx_pair_endpoint P.local_ip P.remote_ip E).1 = 0 ∧
      (Delete_tx_pair_endpoint P.local_ip P.remote_ip E).2.1 = E := by
  refine ⟨{ E with pair_list := E.pair_list ++ [P], pair_num := uint_inc E.pair_num },
    rfl, ?_⟩
  have hinc : uint_inc E.pair_num = E.pair_num + 1 := uint_inc_of_lt E.pair_num hroom
  have h0 : uint_inc E.pair_num ≠ 0 := by rw [hinc]; exact Nat.succ_ne_zero _
  have hdec : uint_dec (uint_inc E.pair_num) = E.pair_num := by
    have := uint_dec_of_pos (uint_inc E.pair_num) h0 (uint_inc_lt _)
    omega
  have hdel := Delete_tx_pair_endpoint_of_hit P.local_ip P.remote_ip
    { E with pair_list := E.pair_list ++ [P], pair_num := uint_inc E.pair_num }
    E.pair_list [] P h0 rfl ⟨rfl, rfl⟩ hfresh
  have hmiss := Delete_tx_pair_endpoint_of_no_key P.local_ip P.remote_ip E hfresh
  rw [hdel]
  refine ⟨rfl, ?_, hmiss.1, hmiss.2⟩
  simp [hdec]

/-- Scenario B of the specification: the pair 10.0.0.1 → 10.0.0.2 is inserted
into the empty endpoint 10.0.0.1 and deleted again. -/
theorem Insert_Delete_round_trip_witness :
    ∃ E1, (Insert_tx_pair_endpoint
        (some { addr := 4096, local_ip := 167772161, remote_ip := 167772162,
                guarantee_bw := 40, timer_interval := 100 })
        (some { addr := 512, local_ip := 167772161, guarantee_bw := 100, pair_list := [],
                pair_num := 0 })).1 = some E1 ∧
      (Delete_tx_pair_endpoint 167772161 167772162 E1).1 = 1 ∧
      (Delete_tx_pair_endpoint 167772161 167772162 E1).2.1 =
        { addr := 512, local_ip := 167772161, guarantee_bw := 100, pair_list := [],
          pair_num := 0 } ∧
      (Delete_tx_pair_endpoint 167772161 167772162
        { addr := 512, local_ip := 167772161, guarantee_bw := 100, pair_list := [],
          pair_num := 0 }).1 = 0 ∧
      (Delete_tx_pair_endpoint 167772161 167772162
        { addr := 512, local_ip := 167772161, guarantee_bw := 100, pair_list := [],
          pair_num := 0 }).2.1 =
        { addr := 512, local_ip := 167772161, guarantee_bw := 100, pair_list := [],
          pair_num := 0 } :=
  Insert_Delete_round_trip
    { addr := 4096, local_ip := 167772161, remote_ip := 167772162, guarantee_bw := 40,
      timer_interval := 100 }
    { addr := 512, local_ip := 167772161, guarantee_bw := 100, pair_list := [],
      pair_num := 0 }
    (by decide) (by simp)

/-! ### `Insert_tx_pair` without a matching endpoint -/

/-- C10 (insert with no matching parent is dropped): when no endpoint of the
host has the pair's `local_ip`, `Insert_tx_pair` performs exactly one effect,
the diagnostic, and leaves the host as it was: `endpoint_num`, the endpoint
list and with it every endpoint's pair list and `pair_num`. The pair is not
reachable afterwards: no lookup with the pair's `local_ip` returns anything,
and a pair that was linked nowhere in the host is still linked nowhere. -/
theorem Insert_tx_pair_no_parent (H : tx_context) (P : pair_tx_context)
    (hno : ∀ e ∈ H.endpoint_list, e.local_ip ≠ P.local_ip) :
    (Insert_tx_pair P H).2 = [Effect.printk_no_matching_endpoint] ∧
    (Insert_tx_pair P H).1 = H ∧
    (Insert_tx_pair P H).1.endpoint_num = H.endpoint_num ∧
    (Insert_tx_pair P H).1.endpoint_list = H.endpoint_list ∧
    (∀ r, (Search_tx_pair (Insert_tx_pair P H).1 P.local_ip r).1 = none) ∧
    ((∀ e ∈ H.endpoint_list, P ∉ e.pair_list) →
      ∀ e ∈ (Insert_tx_pair P H).1.endpoint_list, P ∉ e.pair_list) := by
  have hl := (Insert_tx_pair_loop_eq_none P H.endpoint_list).mpr hno
  have hH : Insert_tx_pair P H = (H, [Effect.printk_no_matching_endpoint]) := by
    simp [Insert_tx_pair, hl]
  rw [hH]
  refine ⟨rfl, rfl, rfl, rfl, ?_, fun h => h⟩
  intro r
  exact (Search_tx_pair_outer_eq_none P.local_ip r H.endpoint_list).mpr
    (fun e he hip => absurd hip (hno e he))

/-- Scenario C of the specification: a pair with local address 10.0.0.9 is
inserted into a host whose only endpoint is 10.0.0.1. -/
theorem Insert_tx_pair_no_parent_witness :
    (Insert_tx_pair
      { addr := 4096, local_ip := 167772169, remote_ip := 167772162, guarantee_bw := 40,
        timer_interval := 100 }
      { endpoint_list := [{ addr := 512, local_ip := 167772161, guarantee_bw := 100,
                            pair_list := [], pair_num := 0 }],
        endpoint_num := 1 }).2 = [Effect.printk_no_matching_endpoint] :=
  (Insert_tx_pair_no_parent
    { endpoint_list := [{ addr := 512, local_ip := 167772161, guarantee_bw := 100,
                          pair_list := [], pair_num := 0 }],
      endpoint_num := 1 }
    { addr := 4096, local_ip := 167772169, remote_ip := 167772162, guarantee_bw := 40,
      timer_interval := 100 }
    (by simp)).1

/-! ### `Empty_tx_context` -/

theorem Empty_tx_context_pairs_fst (ps : List pair_tx_context) :
    (Empty_tx_context_pairs ps).1 = [] := by
  induction ps with
  | nil => rfl
  | cons p rest ih => simpa [Empty_tx_context_pairs] using ih

theorem Empty_tx_context_endpoints_fst (es : List endpoint_tx_context) :
    (Empty_tx_context_endpoints es).1 = [] := by
  induction es with
  | nil => rfl
  | cons e rest ih => simpa [Empty_tx_context_endpoints] using ih

theorem Empty_tx_context_state (H : tx_context) :
    (Empty_tx_context H).1 = { endpoint_list := [], endpoint_num := H.endpoint_num } := by
  simp [Empty_tx_context, Empty_tx_context_endpoints_fst]

/-- The events by which `Free_pair_tx_context` stops the timer, the tasklet and
the rate limiter of a pair. -/
theorem Free_pair_tx_context_cancels (p : pair_tx_context) :
    Effect.hrtimer_cancel p.addr ∈ Free_pair_tx_context p ∧
    Effect.tasklet_kill p.addr ∈ Free_pair_tx_context p ∧
    Effect.Free_tbf p.addr ∈ Free_pair_tx_context p := by
  simp [Free_pair_tx_context]

theorem Empty_tx_context_pairs_no_cancel (ps : List pair_tx_context) (a : Nat) :
    Effect.hrtimer_cancel a ∉ (Empty_tx_context_pairs ps).2 ∧
    Effect.tasklet_kill a ∉ (Empty_tx_context_pairs ps).2 ∧
    Effect.Free_tbf a ∉ (Empty_tx_context_pairs ps).2 := by
  induction ps with
  | nil => simp [Empty_tx_context_pairs]
  | cons p rest ih =>
      obtain ⟨h1, h2, h3⟩ := ih
      simp [Empty_tx_context_pairs, print_pair_tx_context, h1, h2, h3]

theorem Empty_tx_context_endpoints_no_cancel (es : List endpoint_tx_context) (a : Nat) :
    Effect.hrtimer_cancel a ∉ (Empty_tx_context_endpoints es).2 ∧
    Effect.tasklet_kill a ∉ (Empty_tx_context_endpoints es).2 ∧
    Effect.Free_tbf a ∉ (Empty_tx_context_endpoints es).2 := by
  induction es with
  | nil => simp [Empty_tx_context_endpoints]
  | cons e rest ih =>
      obtain ⟨h1, h2, h3⟩ := ih
      obtain ⟨g1, g2, g3⟩ := Empty_tx_context_pairs_no_cancel e.pair_list a
      simp [Empty_tx_context_endpoints, print_endpoint_tx_context, h1, h2, h3, g1, g2, g3]

theorem Empty_tx_context_pairs_kfree (ps : List pair_tx_context) (p : pair_tx_context)
    (hp : p ∈ ps) : Effect.kfree_pair p.addr ∈ (Empty_tx_context_pairs ps).2 := by
  induction ps with
  | nil => cases hp
  | cons x rest ih =>
      rcases List.mem_cons.mp hp with rfl | h
      · simp [Empty_tx_context_pairs]
      · simp [Empty_tx_context_pairs, ih h]

theorem Empty_tx_context_endpoints_kfree (es : List endpoint_tx_context)
    (e : endpoint_tx_context) (p : pair_tx_context) (he : e ∈ es) (hp : p ∈ e.pair_list) :
    Effect.kfree_pair p.addr ∈ (Empty_tx_context_endpoints es).2 := by
  induction es with
  | nil => cases he
  | cons x rest ih =>
      rcases List.mem_cons.mp he with rfl | h
      · simp [Empty_tx_context_endpoints, Empty_tx_context_pairs_kfree _ p hp]
      · simp [Empty_tx_context_endpoints, ih h]

/-- Every pair of the host is released by `Empty_tx_context` with `kfree`, and
the trace of `Empty_tx_context` holds no `hrtimer_cancel`, `tasklet_kill` or
`Free_tbf` event at all. -/
theorem Empty_tx_context_frees_without_cancel (H : tx_context) :
    (∀ e ∈ H.endpoint_list, ∀ p ∈ e.pair_list,
      Effect.kfree_pair p.addr ∈ (Empty_tx_context H).2) ∧
    (∀ a, Effect.hrtimer_cancel a ∉ (Empty_tx_context H).2 ∧
      Effect.tasklet_kill a ∉ (Empty_tx_context H).2 ∧
      Effect.Free_tbf a ∉ (Empty_tx_context H).2) := by
  constructor
  · intro e he p hp
    simp [Empty_tx_context, Empty_tx_context_endpoints_kfree _ e p he hp]
  · intro a
    obtain ⟨h1, h2, h3⟩ := Empty_tx_context_endpoints_no_cancel H.endpoint_list a
    simp [Empty_tx_context, h1, h2, h3]

/-- C5 (host teardown), evaluated on a host with `endpoint_num = 1` whose one
endpoint 10.0.0.1 holds the pair 10.0.0.1 → 10.0.0.2: after `Empty_tx_context`
the endpoint list is empty and every lookup returns `NULL`, but
`endpoint_num` is still 1, not 0. -/
theorem Empty_tx_context_keeps_endpoint_num :
    (Empty_tx_context
      { endpoint_list :=
          [{ addr := 512, local_ip := 167772161, guarantee_bw := 100,
             pair_list := [{ addr := 4096, local_ip := 167772161, remote_ip := 167772162,
                             guarantee_bw := 40, timer_interval := 100 }],
             pair_num := 1 }],
        endpoint_num := 1 }).1 = { endpoint_list := [], endpoint_num := 1 } ∧
    (Search_tx_pair (Empty_tx_context
      { endpoint_list :=
          [{ addr := 512, local_ip := 167772161, guarantee_bw := 100,
             pair_list := [{ addr := 4096, local_ip := 167772161, remote_ip := 167772162,
                             guarantee_bw := 40, timer_interval := 100 }],
             pair_num := 1 }],
        endpoint_num := 1 }).1 167772161 167772162).1 = none := by
  constructor <;> rfl

/-- C6 (pair destruction on removal), evaluated on the endpoint 10.0.0.1
holding the pair 10.0.0.1 → 10.0.0.2 at address 4096: the trace of
`Delete_tx_pair_endpoint`, and the trace of `Empty_tx_context` on the host
with that endpoint, release the pair with `kfree` without any
`hrtimer_cancel`, `tasklet_kill` or `Free_tbf` before it. -/
theorem pair_freed_with_timer_armed :
    (Delete_tx_pair_endpoint 167772161 167772162
      { addr := 512, local_ip := 167772161, guarantee_bw := 100,
        pair_list := [{ addr := 4096, local_ip := 167772161, remote_ip := 167772162,
                        guarantee_bw := 40, timer_interval := 100 }],
        pair_num := 1 }).2.2 =
      [Effect.spin_lock_endpoint 512, Effect.list_del_pair 4096, Effect.kfree_pair 4096,
       Effect.pair_num_dec 512, Effect.spin_unlock_endpoint 512] ∧
    (Empty_tx_context
      { endpoint_list :=
          [{ addr := 512, local_ip := 167772161, guarantee_bw := 100,
             pair_list := [{ addr := 4096, local_ip := 167772161, remote_ip := 167772162,
                             guarantee_bw := 40, timer_interval := 100 }],
             pair_num := 1 }],
        endpoint_num := 1 }).2 =
      [Effect.spin_lock_tx, Effect.print_endpoint 512, Effect.print_pair 4096,
       Effect.list_del_pair 4096, Effect.kfree_pair 4096, Effect.list_del_endpoint 512,
       Effect.kfree_endpoint 512, Effect.spin_unlock_tx] ∧
    Effect.hrtimer_cancel 4096 ∉
      (Delete_tx_pair_endpoint 167772161 167772162
        { addr := 512, local_ip := 167772161, guarantee_bw := 100,
          pair_list := [{ addr := 4096, local_ip := 167772161, remote_ip := 167772162,
                          guarantee_bw := 40, timer_interval := 100 }],
          pair_num := 1 }).2.2 ∧
    Effect.hrtimer_cancel 4096 ∉
      (Empty_tx_context
        { endpoint_list :=
            [{ addr := 512, local_ip := 167772161, guarantee_bw := 100,
               pair_list := [{ addr := 4096, local_ip := 167772161, remote_ip := 167772162,
                               guarantee_bw := 40, timer_interval := 100 }],
               pair_num := 1 }],
          endpoint_num := 1 }).2 := by
  refine ⟨rfl, rfl, ?_, ?_⟩ <;> decide

/-! ### The count invariant -/

theorem modify_endpoint_length (f : endpoint_tx_context → endpoint_tx_context) (i : Nat)
    (es : List endpoint_tx_context) : (modify_endpoint f i es).length = es.length := by
  induction es generalizing i with
  | nil => cases i <;> rfl
  | cons e rest ih =>
      cases i with
      | zero => rfl
      | succ i => simp [modify_endpoint, ih]

theorem modify_endpoint_forall (Q : endpoint_tx_context → Prop)
    (f : endpoint_tx_context → endpoint_tx_context) (i : Nat) (es : List endpoint_tx_context)
    (hf : ∀ e ∈ es, Q e → Q (f e)) (h : ∀ e ∈ es, Q e) :
    ∀ e ∈ modify_endpoint f i es, Q e := by
  induction es generalizing i with
  | nil => cases i <;> simp [modify_endpoint]
  | cons x rest ih =>
      cases i with
      | zero =>
          intro e he
          simp only [modify_endpoint, List.mem_cons] at he
          rcases he with rfl | he
          · exact hf x (by simp) (h x (by simp))
          · exact h e (by simp [he])
      | succ i =>
          intro e he
          simp only [modify_endpoint, List.mem_cons] at he
          rcases he with rfl | he
          · exact h e (by simp)
          · exact ih i (fun y hy => hf y (by simp [hy])) (fun y hy => h y (by simp [hy])) e he

theorem Insert_tx_pair_endpoint_count (p : Option pair_tx_context) (E : endpoint_tx_context)
    (hE : endpoint_count_inv E) (hroom : E.pair_num + 1 < UINT_MOD) :
    endpoint_count_inv ((Insert_tx_pair_endpoint p (some E)).1.getD E) ∧
    ((Insert_tx_pair_endpoint p (some E)).1.getD E).pair_num < UINT_MOD := by
  cases p with
  | none =>
      refine ⟨hE, ?_⟩
      show E.pair_num < UINT_MOD
      omega
  | some p =>
      have hinc := uint_inc_of_lt E.pair_num hroom
      have hE' : E.pair_num = E.pair_list.length := hE
      constructor
      · show uint_inc E.pair_num = (E.pair_list ++ [p]).length
        rw [hinc, hE']
        simp
      · exact uint_inc_lt _

theorem Delete_tx_pair_endpoint_count (l r : Nat) (E : endpoint_tx_context)
    (hE : endpoint_count_inv E) (hrange : E.pair_num < UINT_MOD) :
    endpoint_count_inv (Delete_tx_pair_endpoint l r E).2.1 ∧
    (Delete_tx_pair_endpoint l r E).2.1.pair_num < UINT_MOD := by
  by_cases h0 : E.pair_num = 0
  · rw [Delete_tx_pair_endpoint_of_zero l r E h0]
    exact ⟨hE, hrange⟩
  · cases hl : Delete_tx_pair_endpoint_loop l r E.pair_list with
    | none =>
        rw [Delete_tx_pair_endpoint_of_miss l r E h0
          ((Delete_tx_pair_endpoint_loop_eq_none l r E.pair_list).mp hl)]
        exact ⟨hE, hrange⟩
    | some v =>
        obtain ⟨ps', q⟩ := v
        obtain ⟨ps1, ps2, h1, _, h3, h4⟩ :=
          Delete_tx_pair_endpoint_loop_eq_some l r E.pair_list ps' q hl
        rw [Delete_tx_pair_endpoint_of_hit l r E ps1 ps2 q h0 h1 h3 h4]
        have hdec := uint_dec_of_pos E.pair_num h0 hrange
        have hE' : E.pair_num = E.pair_list.length := hE
        constructor
        · show uint_dec E.pair_num = (ps1 ++ ps2).length
          have hlen : E.pair_list.length = (ps1 ++ ps2).length + 1 := by
            rw [h1]; simp; omega
          omega
        · exact uint_dec_lt _

theorem Insert_tx_endpoint_count (E : endpoint_tx_context) (H : tx_context)
    (hH : tx_count_inv H) (hE : endpoint_count_inv E) (hroom : H.endpoint_num + 1 < UINT_MOD) :
    tx_count_inv (Insert_tx_endpoint E H).1 := by
  obtain ⟨h1, h2⟩ := hH
  constructor
  · show uint_inc H.endpoint_num = (H.endpoint_list ++ [E]).length
    rw [uint_inc_of_lt _ hroom, h1]
    simp
  · intro e he
    have he' : e ∈ H.endpoint_list ++ [E] := he
    rcases List.mem_append.mp he' with h | h
    · exact h2 e h
    · rw [List.mem_singleton.mp h]; exact hE

theorem Insert_tx_pair_count (P : pair_tx_context) (H : tx_context)
    (hH : tx_count_inv H) (hroom : first_match_has_room P H) :
    tx_count_inv (Insert_tx_pair P H).1 ∧
    (Insert_tx_pair P H).1.endpoint_num = H.endpoint_num ∧
    ((∀ e ∈ H.endpoint_list, e.pair_num < UINT_MOD) →
      ∀ e ∈ (Insert_tx_pair P H).1.endpoint_list, e.pair_num < UINT_MOD) := by
  obtain ⟨h1, h2⟩ := hH
  cases hl : Insert_tx_pair_loop P H.endpoint_list with
  | none =>
      have : Insert_tx_pair P H = (H, [Effect.printk_no_matching_endpoint]) := by
        simp [Insert_tx_pair, hl]
      rw [this]
      exact ⟨⟨h1, h2⟩, rfl, fun h => h⟩
  | some v =>
      obtain ⟨es', tr⟩ := v
      obtain ⟨es1, e0, es2, d1, d2, d3, d4, _⟩ :=
        Insert_tx_pair_loop_eq_some P H.endpoint_list es' tr hl
      have : Insert_tx_pair P H = ({ H with endpoint_list := es' }, tr) := by
        simp [Insert_tx_pair, hl]
      rw [this]
      have he0 : e0 ∈ H.endpoint_list := by rw [d1]; simp
      have hc := Insert_tx_pair_endpoint_count (some P) e0 (h2 e0 he0) (hroom e0 (by rw [d1]; exact find_first_local_ip _ es1 es2 e0 d2 d3))
      refine ⟨⟨?_, ?_⟩, rfl, ?_⟩
      · show H.endpoint_num = es'.length
        rw [h1, d1, d4]
        simp
      · intro e he
        have he' : e ∈ es' := he
        rw [d4] at he'
        rcases List.mem_append.mp he' with h | h
        · exact h2 e (by rw [d1]; simp [h])
        · rcases List.mem_cons.mp h with h | h
          · rw [h]; exact hc.1
          · exact h2 e (by rw [d1]; simp [h])
      · intro hr e he
        have he' : e ∈ es' := he
        rw [d4] at he'
        rcases List.mem_append.mp he' with h | h
        · exact hr e (by rw [d1]; simp [h])
        · rcases List.mem_cons.mp h with h | h
          · rw [h]; exact hc.2
          · exact hr e (by rw [d1]; simp [h])

theorem modify_endpoint_forall_at (Q : endpoint_tx_context → Prop)
    (f : endpoint_tx_context → endpoint_tx_context) (i : Nat) (es : List endpoint_tx_context)
    (hf : ∀ e, es[i]? = some e → Q e → Q (f e)) (h : ∀ e ∈ es, Q e) :
    ∀ e ∈ modify_endpoint f i es, Q e := by
  induction es generalizing i with
  | nil => intro e he; simp [modify_endpoint] at he
  | cons x rest ih =>
      cases i with
      | zero =>
          intro e he
          simp only [modify_endpoint, List.mem_cons] at he
          rcases he with rfl | he
          · exact hf x (by simp) (h x (by simp))
          · exact h e (by simp [he])
      | succ i =>
          intro e he
          simp only [modify_endpoint, List.mem_cons] at he
          rcases he with rfl | he
          · exact h e (by simp)
          · exact ih i (fun y hy => hf y (by simpa using hy)) (fun y hy => h y (by simp [hy]))
              e he

theorem step_count (h : tx_context) (op : Op) (hinv : tx_count_inv h)
    (hr : counters_in_range h) (hroom : op.has_room h) :
    tx_count_inv (step h op) ∧ counters_in_range (step h op) := by
  obtain ⟨r1, r2⟩ := hr
  cases op with
  | insert_endpoint raw ip bw =>
      have c1 : h.endpoint_num + 1 < UINT_MOD := hroom
      obtain ⟨e0, he0⟩ : ∃ e0 : endpoint_tx_context, e0 =
          { raw with pair_num := 0, local_ip := ip, guarantee_bw := bw, pair_list := [] } :=
        ⟨_, rfl⟩
      have hs : step h (Op.insert_endpoint raw ip bw) = (Insert_tx_endpoint e0 h).1 := by
        rw [he0]; rfl
      have hc0 : endpoint_count_inv e0 := by rw [he0]; rfl
      have hn0 : e0.pair_num = 0 := by rw [he0]
      rw [hs]
      refine ⟨Insert_tx_endpoint_count _ h hinv hc0 c1, uint_inc_lt _, ?_⟩
      intro e he
      have he' : e ∈ h.endpoint_list ++ [e0] := he
      rcases List.mem_append.mp he' with hm | hm
      · exact r2 e hm
      · rw [List.mem_singleton.mp hm, hn0]
        decide
  | insert_pair p =>
      have c2 : first_match_has_room p h := hroom
      obtain ⟨g1, g2, g3⟩ := Insert_tx_pair_count p h hinv c2
      refine ⟨g1, ?_, g3 r2⟩
      show (Insert_tx_pair p h).1.endpoint_num < UINT_MOD
      rw [g2]; exact r1
  | insert_pair_endpoint p i =>
      have hall : ∀ e ∈ modify_endpoint
          (fun e => (Insert_tx_pair_endpoint p (some e)).1.getD e) i h.endpoint_list,
          endpoint_count_inv e ∧ e.pair_num < UINT_MOD := by
        cases p with
        | none =>
            exact modify_endpoint_forall_at
              (fun e => endpoint_count_inv e ∧ e.pair_num < UINT_MOD) _ i h.endpoint_list
              (fun e _ hq => hq) (fun e he => ⟨hinv.2 e he, r2 e he⟩)
        | some q =>
            have c2 : ∀ e, h.endpoint_list[i]? = some e → e.pair_num + 1 < UINT_MOD := hroom
            exact modify_endpoint_forall_at
              (fun e => endpoint_count_inv e ∧ e.pair_num < UINT_MOD) _ i h.endpoint_list
              (fun e he hq => Insert_tx_pair_endpoint_count (some q) e hq.1 (c2 e he))
              (fun e he => ⟨hinv.2 e he, r2 e he⟩)
      refine ⟨⟨?_, fun e he => (hall e he).1⟩, r1, fun e he => (hall e he).2⟩
      show h.endpoint_num = (modify_endpoint _ i h.endpoint_list).length
      rw [modify_endpoint_length]; exact hinv.1
  | delete_pair_endpoint l r i =>
      have hall := modify_endpoint_forall
        (fun e => endpoint_count_inv e ∧ e.pair_num < UINT_MOD)
        (fun e => (Delete_tx_pair_endpoint l r e).2.1) i h.endpoint_list
        (fun e _ hq => Delete_tx_pair_endpoint_count l r e hq.1 hq.2)
        (fun e he => ⟨hinv.2 e he, r2 e he⟩)
      refine ⟨⟨?_, fun e he => (hall e he).1⟩, r1, fun e he => (hall e he).2⟩
      show h.endpoint_num = (modify_endpoint _ i h.endpoint_list).length
      rw [modify_endpoint_length]; exact hinv.1

theorem run_count (h : tx_context) (ops : List Op) (hinv : tx_count_inv h)
    (hr : counters_in_range h) (hadm : admissible_run h ops) :
    tx_count_inv (run h ops) ∧ counters_in_range (run h ops) := by
  induction ops generalizing h with
  | nil => exact ⟨hinv, hr⟩
  | cons op ops ih =>
      obtain ⟨c1, c2⟩ := hadm
      obtain ⟨s1, s2⟩ := step_count h op hinv hr c1.2
      exact ih (step h op) s1 s2 c2

theorem Insert_tx_pair_endpoint_getD (p : pair_tx_context) (E : endpoint_tx_context) :
    ((Insert_tx_pair_endpoint (some p) (some E)).1.getD E).pair_num = uint_inc E.pair_num ∧
    ((Insert_tx_pair_endpoint (some p) (some E)).1.getD E).pair_list.length =
      E.pair_list.length + 1 := by
  rw [Insert_tx_pair_endpoint_some]
  simp

/-- C4 as stated fails in two ways.
At the capacity of the counter: `full_endpoint` satisfies
`pair_num = length of pair_list` (both `2^32 - 1`); after
`Insert_tx_pair_endpoint` of one more pair its `pair_num` is 0 while its pair
list has `2^32` entries.
On a pair that is already linked: after `Insert_tx_pair_endpoint` of the pairs
at 10, 20, 30 and of the pair at 20 again, `pair_num` is 4, while the list the
four calls of `list_add_tail` leave at the head visits two entries. -/
theorem count_invariant_counterexample :
    endpoint_count_inv full_endpoint ∧
    ((Insert_tx_pair_endpoint
      (some { addr := 64, local_ip := 1, remote_ip := 0, guarantee_bw := 1,
              timer_interval := 100 })
      (some full_endpoint)).1.getD full_endpoint).pair_num = 0 ∧
    ((Insert_tx_pair_endpoint
      (some { addr := 64, local_ip := 1, remote_ip := 0, guarantee_bw := 1,
              timer_interval := 100 })
      (some full_endpoint)).1.getD full_endpoint).pair_list.length = 4294967296 ∧
    (([10, 20, 30, 20].map
        (fun a => pair_tx_context.mk a 1 a 1 100 0)).foldl
        (fun e p => (Insert_tx_pair_endpoint (some p) (some e)).1.getD e)
        (endpoint_tx_context.mk 1 1 1 [] 0)).pair_num = 4 ∧
    list_entries (list_add_tail_all 1 [10, 20, 30, 20] initialised_heads) 1 8 =
      some [10, 20] := by
  refine ⟨full_endpoint_count, ?_, ?_, ?_, ?_⟩
  · rw [(Insert_tx_pair_endpoint_getD _ full_endpoint).1, full_endpoint_pair_num]
    decide
  · rw [(Insert_tx_pair_endpoint_getD _ full_endpoint).2, full_endpoint_pair_list,
      List.length_map, List.length_range]
  · rfl
  · rfl

/-- C4, amended (count invariant for inserts of nodes not yet linked, below
the capacity of the counters): the predicate "`endpoint_num` is the length of
`endpoint_list`, and for every endpoint `pair_num` is the length of its
`pair_list`" holds after `Init_tx_context` and `Init_endpoint_tx_context`; it
is preserved by `Delete_tx_pair_endpoint` whatever the key and the result and
by `Insert_tx_pair_endpoint` with a `NULL` pair; it is preserved by
`Insert_tx_endpoint`, `Insert_tx_pair_endpoint` and `Insert_tx_pair` when the
node handed to `list_add_tail` is not linked at the time (the endpoint not in
the host's endpoint list; the pair not in the endpoint's pair list, and for a
host under none of its endpoints) and the counter the insert increments is
below `2^32 - 1` (for `Insert_tx_pair`, the `pair_num` of the first endpoint
with the pair's `local_ip`); hence it is preserved by every such operation on
a host and holds in every state reached from `Init_tx_context` by a sequence
of such operations. -/
theorem count_invariant :
    (∀ raw h0 : tx_context, (Init_tx_context (some raw)).2.1 = some h0 → tx_count_inv h0) ∧
    (∀ (raw e0 : endpoint_tx_context) (ip bw : Nat),
      (Init_endpoint_tx_context (some raw) ip bw).2.1 = some e0 → endpoint_count_inv e0) ∧
    (∀ (E : endpoint_tx_context) (H : tx_context), tx_count_inv H → endpoint_count_inv E →
      endpoint_not_linked E H → H.endpoint_num + 1 < UINT_MOD →
      tx_count_inv (Insert_tx_endpoint E H).1) ∧
    (∀ E : endpoint_tx_context, endpoint_count_inv E →
      endpoint_count_inv ((Insert_tx_pair_endpoint none (some E)).1.getD E)) ∧
    (∀ (P : pair_tx_context) (E : endpoint_tx_context), endpoint_count_inv E →
      pair_not_linked P E.pair_list → E.pair_num + 1 < UINT_MOD →
      endpoint_count_inv ((Insert_tx_pair_endpoint (some P) (some E)).1.getD E)) ∧
    (∀ (P : pair_tx_context) (H : tx_context), tx_count_inv H →
      ((∃ e ∈ H.endpoint_list, e.local_ip = P.local_ip) → pair_not_linked_in_host P H) →
      first_match_has_room P H → tx_count_inv (Insert_tx_pair P H).1) ∧
    (∀ (l r : Nat) (E : endpoint_tx_context), endpoint_count_inv E → E.pair_num < UINT_MOD →
      endpoint_count_inv (Delete_tx_pair_endpoint l r E).2.1) ∧
    (∀ (h : tx_context) (op : Op), tx_count_inv h → counters_in_range h →
      op.node_not_linked h → op.has_room h →
      tx_count_inv (step h op) ∧ counters_in_range (step h op)) ∧
    (∀ (raw h0 : tx_context) (ops : List Op), (Init_tx_context (some raw)).2.1 = some h0 →
      admissible_run h0 ops → tx_count_inv (run h0 ops)) := by
  have hinit : ∀ raw h0 : tx_context, (Init_tx_context (some raw)).2.1 = some h0 →
      h0 = { endpoint_list := [], endpoint_num := 0 } := by
    intro raw h0 h
    simp only [Init_tx_context, Option.some.injEq] at h
    exact h.symm
  refine ⟨?_, ?_, ?_, ?_, ?_, ?_, ?_, ?_, ?_⟩
  · intro raw h0 h
    rw [hinit raw h0 h]
    exact ⟨rfl, by simp⟩
  · intro raw e0 ip bw h
    simp only [Init_endpoint_tx_context, Option.some.injEq] at h
    rw [← h]
    rfl
  · intro E H hH hE _ hroom
    exact Insert_tx_endpoint_count E H hH hE hroom
  · intro E hE
    exact hE
  · intro P E hE _ hroom
    exact (Insert_tx_pair_endpoint_count (some P) E hE hroom).1
  · intro P H hH _ hroom
    exact (Insert_tx_pair_count P H hH hroom).1
  · intro l r E hE hrange
    exact (Delete_tx_pair_endpoint_count l r E hE hrange).1
  · intro h op hinv hr _ hroom
    exact step_count h op hinv hr hroom
  · intro raw h0 ops h hadm
    have h0eq := hinit raw h0 h
    have hinv : tx_count_inv h0 := by rw [h0eq]; exact ⟨rfl, by simp⟩
    have hr : counters_in_range h0 := by
      rw [h0eq]; exact ⟨by decide, by simp⟩
    exact (run_count h0 ops hinv hr hadm).1

/-- The count invariant after scenario B of the specification, run on a host
initialised from storage holding arbitrary values: endpoint 10.0.0.1 inserted,
pair 10.0.0.1 → 10.0.0.2 inserted, the pair deleted, the delete repeated. The
endpoint and the pair are not linked when they are inserted, and the counters
are at 0. -/
theorem count_invariant_witness :
    tx_count_inv
      (run { endpoint_list := [], endpoint_num := 0 }
        [Op.insert_endpoint
           { addr := 512, local_ip := 7, guarantee_bw := 7, pair_list := [], pair_num := 7 }
           167772161 100,
         Op.insert_pair
           { addr := 4096, local_ip := 167772161, remote_ip := 167772162, guarantee_bw := 40,
             timer_interval := 100 },
         Op.delete_pair_endpoint 167772161 167772162 0,
         Op.delete_pair_endpoint 167772161 167772162 0]) :=
  count_invariant.2.2.2.2.2.2.2.2
    { endpoint_list := [], endpoint_num := 9 }
    { endpoint_list := [], endpoint_num := 0 }
    _ rfl
    (by
      simp [admissible_run, Op.node_not_linked, Op.has_room, endpoint_not_linked,
        pair_not_linked_in_host, pair_not_linked, first_match_has_room, step,
        Init_endpoint_tx_context, Insert_tx_endpoint, Insert_tx_pair, Insert_tx_pair_loop,
        Insert_tx_pair_endpoint, uint_inc, UINT_MOD])

/-! ### The lookup path of a stored pair -/

theorem Delete_tx_pair_endpoint_frame (l r : Nat) (E : endpoint_tx_context) :
    (Delete_tx_pair_endpoint l r E).2.1.local_ip = E.local_ip ∧
    (∀ p ∈ (Delete_tx_pair_endpoint l r E).2.1.pair_list, p ∈ E.pair_list) := by
  by_cases h0 : E.pair_num = 0
  · rw [Delete_tx_pair_endpoint_of_zero l r E h0]
    exact ⟨rfl, fun p hp => hp⟩
  · cases hl : Delete_tx_pair_endpoint_loop l r E.pair_list with
    | none =>
        rw [Delete_tx_pair_endpoint_of_miss l r E h0
          ((Delete_tx_pair_endpoint_loop_eq_none l r E.pair_list).mp hl)]
        exact ⟨rfl, fun p hp => hp⟩
    | some v =>
        obtain ⟨ps', q⟩ := v
        obtain ⟨ps1, ps2, h1, _, h3, h4⟩ :=
          Delete_tx_pair_endpoint_loop_eq_some l r E.pair_list ps' q hl
        rw [Delete_tx_pair_endpoint_of_hit l r E ps1 ps2 q h0 h1 h3 h4]
        refine ⟨rfl, ?_⟩
        intro p hp
        have hp' : p ∈ ps1 ++ ps2 := hp
        rw [h1]
        rcases List.mem_append.mp hp' with h | h
        · simp [h]
        · simp [h]

theorem modify_endpoint_mem (f : endpoint_tx_context → endpoint_tx_context) (i : Nat)
    (es : List endpoint_tx_context) (x : endpoint_tx_context)
    (hx : x ∈ modify_endpoint f i es) : x ∈ es ∨ ∃ e ∈ es, x = f e := by
  induction es generalizing i with
  | nil => cases i <;> simp [modify_endpoint] at hx
  | cons y rest ih =>
      cases i with
      | zero =>
          simp only [modify_endpoint, List.mem_cons] at hx
          rcases hx with rfl | hx
          · exact Or.inr ⟨y, by simp, rfl⟩
          · exact Or.inl (by simp [hx])
      | succ i =>
          simp only [modify_endpoint, List.mem_cons] at hx
          rcases hx with rfl | hx
          · exact Or.inl (by simp)
          · rcases ih i hx with h | ⟨e, he, rfl⟩
            · exact Or.inl (by simp [h])
            · exact Or.inr ⟨e, by simp [he], rfl⟩

theorem modify_endpoint_shadowed_empty (f : endpoint_tx_context → endpoint_tx_context)
    (hf : ∀ e, (f e).local_ip = e.local_ip ∧ (e.pair_list = [] → (f e).pair_list = []))
    (i : Nat) (es : List endpoint_tx_context) (h : shadowed_empty es) :
    shadowed_empty (modify_endpoint f i es) := by
  induction es generalizing i with
  | nil => cases i <;> simp [modify_endpoint, shadowed_empty]
  | cons y rest ih =>
      obtain ⟨h1, h2⟩ := List.pairwise_cons.mp h
      cases i with
      | zero =>
          refine List.pairwise_cons.mpr ⟨?_, h2⟩
          intro x hx hip
          exact h1 x hx (by rw [← (hf y).1]; exact hip)
      | succ i =>
          refine List.pairwise_cons.mpr ⟨?_, ih i h2⟩
          intro x hx hip
          rcases modify_endpoint_mem f i rest x hx with hm | ⟨e, he, rfl⟩
          · exact h1 x hm hip
          · exact (hf e).2 (h1 e he (by rw [hip, (hf e).1]))

theorem step_lookup_inv (h : tx_context) (op : Op) (hop : op.via_host = true)
    (hk : key_agreement h.endpoint_list) (hs : shadowed_empty h.endpoint_list) :
    key_agreement (step h op).endpoint_list ∧ shadowed_empty (step h op).endpoint_list := by
  cases op with
  | insert_endpoint raw ip bw =>
      obtain ⟨e0, he0⟩ : ∃ e0 : endpoint_tx_context, e0 =
          { raw with pair_num := 0, local_ip := ip, guarantee_bw := bw, pair_list := [] } :=
        ⟨_, rfl⟩
      have hst : (step h (Op.insert_endpoint raw ip bw)).endpoint_list =
          h.endpoint_list ++ [e0] := by rw [he0]; rfl
      have hnil : e0.pair_list = [] := by rw [he0]
      rw [hst]
      constructor
      · intro e he p hp
        rcases List.mem_append.mp he with hm | hm
        · exact hk e hm p hp
        · rw [List.mem_singleton.mp hm, hnil] at hp
          cases hp
      · refine List.pairwise_append.mpr ⟨hs, by simp, ?_⟩
        intro a _ b hb _
        rw [List.mem_singleton.mp hb]
        exact hnil
  | insert_pair P =>
      cases hl : Insert_tx_pair_loop P h.endpoint_list with
      | none =>
          have : step h (Op.insert_pair P) = h := by
            simp [step, Insert_tx_pair, hl]
          rw [this]
          exact ⟨hk, hs⟩
      | some v =>
          obtain ⟨es', tr⟩ := v
          obtain ⟨es1, e0, es2, d1, d2, d3, d4, _⟩ :=
            Insert_tx_pair_loop_eq_some P h.endpoint_list es' tr hl
          have hst : (step h (Op.insert_pair P)).endpoint_list = es' := by
            simp [step, Insert_tx_pair, hl]
          rw [hst, d4]
          rw [d1] at hk hs
          constructor
          · intro e he p hp
            rcases List.mem_append.mp he with hm | hm
            · exact hk e (by simp [hm]) p hp
            · rcases List.mem_cons.mp hm with hm | hm
              · rw [hm] at hp ⊢
                have hp' : p ∈ e0.pair_list ++ [P] := hp
                show p.local_ip = e0.local_ip
                rcases List.mem_append.mp hp' with hq | hq
                · exact hk e0 (by simp) p hq
                · rw [List.mem_singleton.mp hq]; exact d2.symm
              · exact hk e (by simp [hm]) p hp
          · obtain ⟨p1, p2, p3⟩ := List.pairwise_append.mp hs
            obtain ⟨q1, q2⟩ := List.pairwise_cons.mp p2
            refine List.pairwise_append.mpr ⟨p1, List.pairwise_cons.mpr ⟨q1, q2⟩, ?_⟩
            intro a ha b hb hip
            rcases List.mem_cons.mp hb with hm | hm
            · rw [hm] at hip
              exact absurd (hip.trans d2) (d3 a ha)
            · exact p3 a ha b (by simp [hm]) hip
  | insert_pair_endpoint p i => cases hop
  | delete_pair_endpoint l r i =>
      have hst : (step h (Op.delete_pair_endpoint l r i)).endpoint_list =
          modify_endpoint (fun e => (Delete_tx_pair_endpoint l r e).2.1) i h.endpoint_list :=
        rfl
      rw [hst]
      constructor
      · intro e he p hp
        rcases modify_endpoint_mem _ i h.endpoint_list e he with hm | ⟨e1, he1, rfl⟩
        · exact hk e hm p hp
        · obtain ⟨f1, f2⟩ := Delete_tx_pair_endpoint_frame l r e1
          show p.local_ip = (Delete_tx_pair_endpoint l r e1).2.1.local_ip
          rw [f1]
          exact hk e1 he1 p (f2 p hp)
      · refine modify_endpoint_shadowed_empty _ ?_ i h.endpoint_list hs
        intro e
        obtain ⟨f1, f2⟩ := Delete_tx_pair_endpoint_frame l r e
        refine ⟨f1, ?_⟩
        intro hnil
        apply List.eq_nil_iff_forall_not_mem.mpr
        intro p hp
        have := f2 p hp
        rw [hnil] at this
        cases this

theorem run_lookup_inv (h : tx_context) (ops : List Op) (hops : ∀ op ∈ ops, op.via_host = true)
    (hk : key_agreement h.endpoint_list) (hs : shadowed_empty h.endpoint_list) :
    key_agreement (run h ops).endpoint_list ∧ shadowed_empty (run h ops).endpoint_list := by
  induction ops generalizing h with
  | nil => exact ⟨hk, hs⟩
  | cons op ops ih =>
      obtain ⟨s1, s2⟩ := step_lookup_inv h op (hops op (by simp)) hk hs
      exact ih (step h op) (fun o ho => hops o (by simp [ho])) s1 s2

theorem Search_tx_pair_outer_of_first (es : List endpoint_tx_context)
    (E : endpoint_tx_context) (P : pair_tx_context) (ps1 ps2 : List pair_tx_context)
    (hs : shadowed_empty es) (hE : E ∈ es) (hP : E.pair_list = ps1 ++ P :: ps2)
    (hfirst : ∀ q ∈ ps1, q.remote_ip ≠ P.remote_ip) :
    Search_tx_pair_outer E.local_ip P.remote_ip es = some P := by
  induction es with
  | nil => cases hE
  | cons x rest ih =>
      obtain ⟨h1, h2⟩ := List.pairwise_cons.mp hs
      have hne : E.pair_list ≠ [] := by
        intro h; rw [h] at hP; simp at hP
      rcases List.mem_cons.mp hE with rfl | hm
      · have hin : Search_tx_pair_inner P.remote_ip E.pair_list = some P := by
          rw [hP]
          exact Search_tx_pair_inner_append_hit P.remote_ip ps1 ps2 P rfl hfirst
        simp [Search_tx_pair_outer, hin]
      · have hx : x.local_ip ≠ E.local_ip := fun hip => hne (h1 E hm hip)
        simp only [Search_tx_pair_outer, if_neg hx]
        exact ih h2 hm

/-- C3 as stated fails in two ways.
After two inserts with the same key: from the initialised host, insert the
endpoint 10.0.0.1, then the pair 10.0.0.1 → 10.0.0.2 at address 4096, then a
second pair 10.0.0.1 → 10.0.0.2 at address 8192. Both pairs are stored under
the endpoint, and the lookup with the second pair's own key
(10.0.0.1, 10.0.0.2) returns the first pair, not the second.
After the insert of a pair that is already linked: when the pairs at 20 and
30 and then the pair at 20 again are handed to `list_add_tail` at the head 1,
the walk of the list visits the pair at 20 only; the pair at 30, inserted and
never deleted, is not reached by any lookup. -/
theorem unique_lookup_path_counterexample :
    (run { endpoint_list := [], endpoint_num := 0 }
      [Op.insert_endpoint
         { addr := 512, local_ip := 0, guarantee_bw := 0, pair_list := [], pair_num := 0 }
         167772161 100,
       Op.insert_pair
         { addr := 4096, local_ip := 167772161, remote_ip := 167772162, guarantee_bw := 40,
           timer_interval := 100 },
       Op.insert_pair
         { addr := 8192, local_ip := 167772161, remote_ip := 167772162, guarantee_bw := 40,
           timer_interval := 100 }]) =
      { endpoint_list :=
          [{ addr := 512, local_ip := 167772161, guarantee_bw := 100,
             pair_list := [{ addr := 4096, local_ip := 167772161, remote_ip := 167772162,
                             guarantee_bw := 40, timer_interval := 100 },
                           { addr := 8192, local_ip := 167772161, remote_ip := 167772162,
                             guarantee_bw := 40, timer_interval := 100 }],
             pair_num := 2 }],
        endpoint_num := 1 } ∧
    (Search_tx_pair
      (run { endpoint_list := [], endpoint_num := 0 }
        [Op.insert_endpoint
           { addr := 512, local_ip := 0, guarantee_bw := 0, pair_list := [], pair_num := 0 }
           167772161 100,
         Op.insert_pair
           { addr := 4096, local_ip := 167772161, remote_ip := 167772162, guarantee_bw := 40,
             timer_interval := 100 },
         Op.insert_pair
           { addr := 8192, local_ip := 167772161, remote_ip := 167772162, guarantee_bw := 40,
             timer_interval := 100 }])
      167772161 167772162).1 =
      some { addr := 4096, local_ip := 167772161, remote_ip := 167772162, guarantee_bw := 40,
             timer_interval := 100 } ∧
    (Search_tx_pair
      (run { endpoint_list := [], endpoint_num := 0 }
        [Op.insert_endpoint
           { addr := 512, local_ip := 0, guarantee_bw := 0, pair_list := [], pair_num := 0 }
           167772161 100,
         Op.insert_pair
           { addr := 4096, local_ip := 167772161, remote_ip := 167772162, guarantee_bw := 40,
             timer_interval := 100 },
         Op.insert_pair
           { addr := 8192, local_ip := 167772161, remote_ip := 167772162, guarantee_bw := 40,
             timer_interval := 100 }])
      167772161 167772162).1 ≠
      some { addr := 8192, local_ip := 167772161, remote_ip := 167772162, guarantee_bw := 40,
             timer_interval := 100 } ∧
    list_entries (list_add_tail_all 1 [20, 30] initialised_heads) 1 8 = some [20, 30] ∧
    list_entries (list_add_tail_all 1 [20, 30, 20] initialised_heads) 1 8 = some [20] := by
  refine ⟨rfl, rfl, ?_, rfl, rfl⟩
  decide

/-- C3, amended (unique lookup path of the first pair of a key, every insert
being of a node not yet linked): in every host state reached from
`Init_tx_context` by a sequence of `Insert_tx_endpoint` (of freshly
initialised endpoints), `Insert_tx_pair` and `Delete_tx_pair_endpoint` in
which every insert links a node that is not linked in the host at the time,
for every pair `P` stored under an endpoint `E`: `Search_tx_pair(H, a, b)`
returns `P` only if `a = E.local_ip` and `b = P.remote_ip`; and when no pair
stored before `P` under `E` has `P`'s `remote_ip`, it returns `P` if and only
if `a = E.local_ip` and `b = P.remote_ip`. -/
theorem unique_lookup_path (raw h0 : tx_context) (ops : List Op)
    (hinit : (Init_tx_context (some raw)).2.1 = some h0)
    (hops : ∀ op ∈ ops, op.via_host = true) (_hfresh : fresh_run h0 ops)
    (E : endpoint_tx_context) (hE : E ∈ (run h0 ops).endpoint_list)
    (P : pair_tx_context) (ps1 ps2 : List pair_tx_context)
    (hP : E.pair_list = ps1 ++ P :: ps2) (a b : Nat) :
    ((Search_tx_pair (run h0 ops) a b).1 = some P → a = E.local_ip ∧ b = P.remote_ip) ∧
    ((∀ q ∈ ps1, q.remote_ip ≠ P.remote_ip) →
      ((Search_tx_pair (run h0 ops) a b).1 = some P ↔ a = E.local_ip ∧ b = P.remote_ip)) := by
  have h0eq : h0 = { endpoint_list := [], endpoint_num := 0 } := by
    simp only [Init_tx_context, Option.some.injEq] at hinit
    exact hinit.symm
  have hk0 : key_agreement h0.endpoint_list := by
    rw [h0eq]; intro e he; cases he
  have hs0 : shadowed_empty h0.endpoint_list := by
    rw [h0eq]; exact List.Pairwise.nil
  obtain ⟨hk, hs⟩ := run_lookup_inv h0 ops hops hk0 hs0
  have hPmem : P ∈ E.pair_list := by rw [hP]; simp
  have honly : (Search_tx_pair (run h0 ops) a b).1 = some P →
      a = E.local_ip ∧ b = P.remote_ip := by
    intro hfound
    obtain ⟨es1, e, es2, qs1, qs2, d1, d2, d3, d4, _, _⟩ :=
      Search_tx_pair_outer_eq_some a b (run h0 ops).endpoint_list P hfound
    have he : e ∈ (run h0 ops).endpoint_list := by rw [d1]; simp
    have hPe : P ∈ e.pair_list := by rw [d3]; simp
    have k1 := hk e he P hPe
    have k2 := hk E hE P hPmem
    exact ⟨by rw [← d2, ← k1, k2], d4.symm⟩
  refine ⟨honly, fun hfirst => ⟨honly, ?_⟩⟩
  rintro ⟨rfl, rfl⟩
  exact Search_tx_pair_outer_of_first (run h0 ops).endpoint_list E P ps1 ps2 hs hE hP hfirst

/-- A run of scenario A of the specification with a second pair: the endpoint
10.0.0.1, the pair 10.0.0.1 → 10.0.0.2 at 4096 and the pair
10.0.0.1 → 10.0.0.3 at 8192 are inserted into the initialised host, each node
not linked before. The second pair comes after a pair with another
`remote_ip`, and the lookup (10.0.0.1, 10.0.0.3) is the one that returns it. -/
theorem unique_lookup_path_witness :
    ((Search_tx_pair
      (run { endpoint_list := [], endpoint_num := 0 }
        [Op.insert_endpoint
           { addr := 512, local_ip := 0, guarantee_bw := 0, pair_list := [], pair_num := 0 }
           167772161 100,
         Op.insert_pair
           { addr := 4096, local_ip := 167772161, remote_ip := 167772162, guarantee_bw := 40,
             timer_interval := 100 },
         Op.insert_pair
           { addr := 8192, local_ip := 167772161, remote_ip := 167772163, guarantee_bw := 40,
             timer_interval := 100 }])
      167772161 167772163).1 =
      some { addr := 8192, local_ip := 167772161, remote_ip := 167772163, guarantee_bw := 40,
             timer_interval := 100 } ↔
    167772161 = 167772161 ∧ 167772163 = 167772163) :=
  (unique_lookup_path
    { endpoint_list := [], endpoint_num := 9 }
    { endpoint_list := [], endpoint_num := 0 }
    [Op.insert_endpoint
       { addr := 512, local_ip := 0, guarantee_bw := 0, pair_list := [], pair_num := 0 }
       167772161 100,
     Op.insert_pair
       { addr := 4096, local_ip := 167772161, remote_ip := 167772162, guarantee_bw := 40,
         timer_interval := 100 },
     Op.insert_pair
       { addr := 8192, local_ip := 167772161, remote_ip := 167772163, guarantee_bw := 40,
         timer_interval := 100 }]
    rfl
    (by simp [Op.via_host])
    (by
      simp [fresh_run, Op.node_not_linked, endpoint_not_linked, pair_not_linked_in_host,
        pair_not_linked, step, Init_endpoint_tx_context, Insert_tx_endpoint, Insert_tx_pair,
        Insert_tx_pair_loop, Insert_tx_pair_endpoint, uint_inc, UINT_MOD])
    { addr := 512, local_ip := 167772161, guarantee_bw := 100,
      pair_list := [{ addr := 4096, local_ip := 167772161, remote_ip := 167772162,
                      guarantee_bw := 40, timer_interval := 100 },
                    { addr := 8192, local_ip := 167772161, remote_ip := 167772163,
                      guarantee_bw := 40, timer_interval := 100 }],
      pair_num := 2 }
    (List.Mem.head _)
    { addr := 8192, local_ip := 167772161, remote_ip := 167772163, guarantee_bw := 40,
      timer_interval := 100 }
    [{ addr := 4096, local_ip := 167772161, remote_ip := 167772162, guarantee_bw := 40,
       timer_interval := 100 }]
    []
    rfl
    167772161 167772163).2 (by simp)

/-! ### Insertion order -/

theorem appended_only_append (es tail : List endpoint_tx_context) :
    appended_only es (es ++ tail) := by
  induction es with
  | nil => simp [appended_only]
  | cons e rest ih => exact ⟨rfl, rfl, List.prefix_refl _, ih⟩

theorem appended_only_refl (es : List endpoint_tx_context) : appended_only es es := by
  induction es with
  | nil => simp [appended_only]
  | cons e rest ih => exact ⟨rfl, rfl, List.prefix_refl _, ih⟩

theorem appended_only_trans (es1 es2 es3 : List endpoint_tx_context)
    (h12 : appended_only es1 es2) (h23 : appended_only es2 es3) : appended_only es1 es3 := by
  induction es1 generalizing es2 es3 with
  | nil => simp [appended_only]
  | cons e1 r1 ih =>
      cases es2 with
      | nil => exact absurd h12 (by simp [appended_only])
      | cons e2 r2 =>
          cases es3 with
          | nil => exact absurd h23 (by simp [appended_only])
          | cons e3 r3 =>
              obtain ⟨a1, a2, a3, a4⟩ := h12
              obtain ⟨b1, b2, b3, b4⟩ := h23
              exact ⟨b1.trans a1, b2.trans a2, a3.trans b3, ih r2 r3 a4 b4⟩

theorem appended_only_middle (es1 es2 : List endpoint_tx_context)
    (e e' : endpoint_tx_context) (ha : e'.addr = e.addr) (hl : e'.local_ip = e.local_ip)
    (hp : e.pair_list <+: e'.pair_list) :
    appended_only (es1 ++ e :: es2) (es1 ++ e' :: es2) := by
  induction es1 with
  | nil => exact ⟨ha, hl, hp, appended_only_refl es2⟩
  | cons x rest ih => exact ⟨rfl, rfl, List.prefix_refl _, ih⟩

theorem appended_only_modify (f : endpoint_tx_context → endpoint_tx_context)
    (hf : ∀ e, (f e).addr = e.addr ∧ (f e).local_ip = e.local_ip ∧
      e.pair_list <+: (f e).pair_list)
    (i : Nat) (es : List endpoint_tx_context) :
    appended_only es (modify_endpoint f i es) := by
  induction es generalizing i with
  | nil => simp [appended_only]
  | cons e rest ih =>
      cases i with
      | zero =>
          exact ⟨(hf e).1, (hf e).2.1, (hf e).2.2, appended_only_refl rest⟩
      | succ i => exact ⟨rfl, rfl, List.prefix_refl _, ih i⟩

theorem step_appended_only (h : tx_context) (op : Op) (hop : op.is_insert = true) :
    appended_only h.endpoint_list (step h op).endpoint_list := by
  cases op with
  | insert_endpoint raw ip bw =>
      exact appended_only_append h.endpoint_list _
  | insert_pair P =>
      cases hl : Insert_tx_pair_loop P h.endpoint_list with
      | none =>
          have : step h (Op.insert_pair P) = h := by
            simp [step, Insert_tx_pair, hl]
          rw [this]
          exact appended_only_refl h.endpoint_list
      | some v =>
          obtain ⟨es', tr⟩ := v
          obtain ⟨es1, e0, es2, d1, _, _, d4, _⟩ :=
            Insert_tx_pair_loop_eq_some P h.endpoint_list es' tr hl
          have hst : (step h (Op.insert_pair P)).endpoint_list = es' := by
            simp [step, Insert_tx_pair, hl]
          rw [hst, d4, d1]
          exact appended_only_middle es1 es2 e0 _ rfl rfl (List.prefix_append _ _)
  | insert_pair_endpoint p i =>
      refine appended_only_modify _ ?_ i h.endpoint_list
      intro e
      cases p with
      | none => exact ⟨rfl, rfl, List.prefix_refl _⟩
      | some p => exact ⟨rfl, rfl, List.prefix_append _ _⟩
  | delete_pair_endpoint l r i => cases hop

theorem run_appended_only (h : tx_context) (ops : List Op)
    (hops : ∀ op ∈ ops, op.is_insert = true) :
    appended_only h.endpoint_list (run h ops).endpoint_list := by
  induction ops generalizing h with
  | nil => exact appended_only_refl h.endpoint_list
  | cons op ops ih =>
      have h1 := step_appended_only h op (hops op (by simp))
      have h2 := ih (step h op) (fun o ho => hops o (by simp [ho]))
      exact appended_only_trans _ _ _ h1 h2

theorem foldl_Insert_tx_endpoint (Es : List endpoint_tx_context) (H : tx_context) :
    (Es.foldl (fun h e => (Insert_tx_endpoint e h).1) H).endpoint_list =
      H.endpoint_list ++ Es := by
  induction Es generalizing H with
  | nil => simp
  | cons e rest ih =>
      rw [List.foldl_cons, ih]
      simp [Insert_tx_endpoint]

theorem foldl_Insert_tx_pair_endpoint (Ps : List pair_tx_context) (E : endpoint_tx_context) :
    (Ps.foldl (fun e p => (Insert_tx_pair_endpoint (some p) (some e)).1.getD e) E).pair_list =
      E.pair_list ++ Ps := by
  induction Ps generalizing E with
  | nil => simp
  | cons p rest ih =>
      rw [List.foldl_cons, ih]
      simp [Insert_tx_pair_endpoint]

/-- C11 as stated fails in two ways.
At the capacity of the counters: `full_endpoint` holds `2^32 - 1` pairs with
`pair_num = 2^32 - 1`, and after `Insert_tx_pair_endpoint` of one more pair
its `pair_num` is 0, not the old value plus 1; likewise `Insert_tx_endpoint`
into a host whose `endpoint_num` is `2^32 - 1` leaves `endpoint_num = 0`.
On a node that is already linked: with the entries at 10, 20, 30 linked at
the head 1, `list_add_tail` of the entry at 20 once more leaves a list whose
walk visits 10 and 20 only, not the old list followed by 20; and with the
entries 10, 20 linked, `list_add_tail` of the tail 20 once more leaves
`next` of 20 pointing to 20 itself, so that the walk never comes back to the
head. -/
theorem insertion_order_counterexample :
    full_endpoint.pair_num = 4294967295 ∧
    full_endpoint.pair_list.length = 4294967295 ∧
    ((Insert_tx_pair_endpoint
      (some { addr := 64, local_ip := 1, remote_ip := 0, guarantee_bw := 1,
              timer_interval := 100 })
      (some full_endpoint)).1.getD full_endpoint).pair_num = 0 ∧
    (Insert_tx_endpoint
      { addr := 512, local_ip := 167772161, guarantee_bw := 100, pair_list := [],
        pair_num := 0 }
      { endpoint_list := [], endpoint_num := 4294967295 }).1.endpoint_num = 0 ∧
    list_entries (list_add_tail_all 1 [10, 20, 30] initialised_heads) 1 8 =
      some [10, 20, 30] ∧
    list_entries (list_add_tail 20 1 (list_add_tail_all 1 [10, 20, 30] initialised_heads))
      1 8 = some [10, 20] ∧
    list_entries (list_add_tail_all 1 [10, 20] initialised_heads) 1 8 = some [10, 20] ∧
    (list_add_tail 20 1 (list_add_tail_all 1 [10, 20] initialised_heads) 20).next = 20 ∧
    list_entries (list_add_tail 20 1 (list_add_tail_all 1 [10, 20] initialised_heads))
      1 8 = none := by
  refine ⟨full_endpoint_pair_num, ?_, ?_, ?_, rfl, rfl, rfl, rfl, rfl⟩
  · rw [full_endpoint_pair_list, List.length_map, List.length_range]
  · rw [(Insert_tx_pair_endpoint_getD _ full_endpoint).1, full_endpoint_pair_num]
    decide
  · decide

/-- C11, amended (append-to-tail of a node not yet linked, counters modulo
`2^32`): `Insert_tx_endpoint(E, H)` sets `endpoint_num` to
`(old + 1) mod 2^32`, which is `old + 1` when `old < 2^32 - 1`, and, when `E`
is not linked in the endpoint list of `H`, yields the endpoint list
`old ++ [E]`, whatever the `local_ip` of `E`; `Insert_tx_pair_endpoint(P, E)`
with non-null `P` sets `pair_num` to `(old + 1) mod 2^32`, which is `old + 1`
when `old < 2^32 - 1`, leaves the other fields alone and, when `P` is not
linked in the pair list of `E`, yields the pair list `old ++ [P]`. On the
pointers: when the memory holds the old list at the head and the node is
neither the head nor an entry, the memory after the `list_add_tail` of the
call holds the new list of the function, in this order.
Consequently a sequence of `Insert_tx_endpoint` of distinct endpoints not
linked in the host leaves the endpoint list `old ++ Es`, a sequence of
`Insert_tx_pair_endpoint` of distinct pairs not linked in the endpoint leaves
the pair list `old ++ Ps`, both in the order of the calls, and in a run of
inserts of any kind, each of a node not linked in the host at the time, every
endpoint keeps its place and every pair list is only extended at its tail. -/
theorem insertion_order_preserved :
    (∀ (E : endpoint_tx_context) (H : tx_context),
      (Insert_tx_endpoint E H).1.endpoint_num = (H.endpoint_num + 1) % UINT_MOD ∧
      (H.endpoint_num + 1 < UINT_MOD →
        (Insert_tx_endpoint E H).1.endpoint_num = H.endpoint_num + 1) ∧
      (endpoint_not_linked E H →
        (Insert_tx_endpoint E H).1.endpoint_list = H.endpoint_list ++ [E])) ∧
    (∀ (P : pair_tx_context) (E : endpoint_tx_context),
      ∃ E1, (Insert_tx_pair_endpoint (some P) (some E)).1 = some E1 ∧
        E1.pair_num = (E.pair_num + 1) % UINT_MOD ∧
        (E.pair_num + 1 < UINT_MOD → E1.pair_num = E.pair_num + 1) ∧
        E1.addr = E.addr ∧ E1.local_ip = E.local_ip ∧ E1.guarantee_bw = E.guarantee_bw ∧
        (pair_not_linked P E.pair_list → E1.pair_list = E.pair_list ++ [P])) ∧
    (∀ (m : Nat → list_head) (head : Nat) (E : endpoint_tx_context) (H : tx_context),
      holds_list m head (H.endpoint_list.map (fun e => e.addr)) →
      E.addr ≠ head → endpoint_not_linked E H →
      holds_list (list_add_tail E.addr head m) head
        ((Insert_tx_endpoint E H).1.endpoint_list.map (fun e => e.addr))) ∧
    (∀ (m : Nat → list_head) (head : Nat) (P : pair_tx_context) (E : endpoint_tx_context),
      holds_list m head (E.pair_list.map (fun p => p.addr)) →
      P.addr ≠ head → pair_not_linked P E.pair_list →
      holds_list (list_add_tail P.addr head m) head
        (((Insert_tx_pair_endpoint (some P) (some E)).1.getD E).pair_list.map
          (fun p => p.addr))) ∧
    (∀ (Es : List endpoint_tx_context) (H : tx_context),
      (Es.map (fun e => e.addr)).Nodup → (∀ e ∈ Es, endpoint_not_linked e H) →
      (Es.foldl (fun h e => (Insert_tx_endpoint e h).1) H).endpoint_list =
        H.endpoint_list ++ Es) ∧
    (∀ (Ps : List pair_tx_context) (E : endpoint_tx_context),
      (Ps.map (fun p => p.addr)).Nodup → (∀ p ∈ Ps, pair_not_linked p E.pair_list) →
      (Ps.foldl (fun e p => (Insert_tx_pair_endpoint (some p) (some e)).1.getD e)
        E).pair_list = E.pair_list ++ Ps) ∧
    (∀ (h : tx_context) (ops : List Op), (∀ op ∈ ops, op.is_insert = true) →
      fresh_run h ops → appended_only h.endpoint_list (run h ops).endpoint_list) := by
  refine ⟨?_, ?_, ?_, ?_, fun Es H _ _ => foldl_Insert_tx_endpoint Es H,
    fun Ps E _ _ => foldl_Insert_tx_pair_endpoint Ps E,
    fun h ops hops _ => run_appended_only h ops hops⟩
  · intro E H
    exact ⟨rfl, fun hlt => uint_inc_of_lt _ hlt, fun _ => rfl⟩
  · intro P E
    exact ⟨_, rfl, rfl, fun hlt => uint_inc_of_lt _ hlt, rfl, rfl, rfl, fun _ => rfl⟩
  · intro m head E H hm hne hfresh
    exact Insert_tx_endpoint_refines m head E H hm hne hfresh
  · intro m head P E hm hne hfresh
    exact Insert_tx_pair_endpoint_refines m head P E hm hne hfresh

/-- Two endpoints with the same address 10.0.0.1, at 512 and at 1024, inserted
into the empty host: the list holds both, in the order of the calls; and the
memory that holds the empty list at the head 1 holds, after the
`list_add_tail` of the first insert, the list of the endpoint at 512. -/
theorem insertion_order_preserved_witness :
    ([({ addr := 512, local_ip := 167772161, guarantee_bw := 100, pair_list := [],
         pair_num := 0 } : endpoint_tx_context),
      { addr := 1024, local_ip := 167772161, guarantee_bw := 50, pair_list := [],
        pair_num := 0 }].foldl
      (fun h e => (Insert_tx_endpoint e h).1)
      { endpoint_list := [], endpoint_num := 0 }).endpoint_list =
      [] ++
      [{ addr := 512, local_ip := 167772161, guarantee_bw := 100, pair_list := [],
         pair_num := 0 },
       { addr := 1024, local_ip := 167772161, guarantee_bw := 50, pair_list := [],
         pair_num := 0 }] ∧
    (Insert_tx_endpoint
      { addr := 512, local_ip := 167772161, guarantee_bw := 100, pair_list := [],
        pair_num := 0 }
      { endpoint_list := [], endpoint_num := 0 }).1.endpoint_num = 0 + 1 ∧
    holds_list (list_add_tail 512 1 initialised_heads) 1 [512] :=
  ⟨insertion_order_preserved.2.2.2.2.1 _ _ (by decide)
     (by simp [endpoint_not_linked]),
   (insertion_order_preserved.1 _ _).2.1 (by decide),
   insertion_order_preserved.2.2.1 initialised_heads 1
     { addr := 512, local_ip := 167772161, guarantee_bw := 100, pair_list := [],
       pair_num := 0 }
     { endpoint_list := [], endpoint_num := 0 }
     (holds_list_init 1) (by decide) (by simp [endpoint_not_linked])⟩

/-! ### `Insert_tx_pair` with a matching endpoint -/

theorem Insert_tx_pair_loop_first (P : pair_tx_context) (es1 es2 : List endpoint_tx_context)
    (e : endpoint_tx_context) (he : e.local_ip = P.local_ip)
    (hfirst : ∀ x ∈ es1, x.local_ip ≠ P.local_ip) :
    Insert_tx_pair_loop P (es1 ++ e :: es2) =
      some (es1 ++ { e with pair_list := e.pair_list ++ [P],
                            pair_num := uint_inc e.pair_num } :: es2,
        [Effect.spin_lock_endpoint e.addr, Effect.list_add_tail_pair P.addr e.addr,
         Effect.pair_num_inc e.addr, Effect.spin_unlock_endpoint e.addr]) := by
  induction es1 with
  | nil => exact Insert_tx_pair_loop_hit P e es2 he
  | cons x rest ih =>
      have hx : x.local_ip ≠ P.local_ip := hfirst x (by simp)
      have ih' := ih (fun y hy => hfirst y (by simp [hy]))
      rw [List.cons_append, Insert_tx_pair_loop_skip P x _ hx, ih']
      rfl

theorem Insert_tx_pair_of_first (P : pair_tx_context) (H : tx_context)
    (es1 es2 : List endpoint_tx_context) (e : endpoint_tx_context)
    (hH : H.endpoint_list = es1 ++ e :: es2) (he : e.local_ip = P.local_ip)
    (hfirst : ∀ x ∈ es1, x.local_ip ≠ P.local_ip) :
    Insert_tx_pair P H =
      ({ endpoint_list := es1 ++ { e with pair_list := e.pair_list ++ [P],
                                          pair_num := uint_inc e.pair_num } :: es2,
         endpoint_num := H.endpoint_num },
       [Effect.spin_lock_endpoint e.addr, Effect.list_add_tail_pair P.addr e.addr,
        Effect.pair_num_inc e.addr, Effect.spin_unlock_endpoint e.addr]) := by
  have hl := Insert_tx_pair_loop_first P es1 es2 e he hfirst
  rw [← hH] at hl
  unfold Insert_tx_pair
  rw [hl]

theorem exists_first_local_ip (a : Nat) (es : List endpoint_tx_context)
    (h : ∃ e ∈ es, e.local_ip = a) :
    ∃ es1 e es2, es = es1 ++ e :: es2 ∧ e.local_ip = a ∧ ∀ x ∈ es1, x.local_ip ≠ a := by
  induction es with
  | nil => obtain ⟨e, he, _⟩ := h; cases he
  | cons x rest ih =>
      by_cases hx : x.local_ip = a
      · exact ⟨[], x, rest, rfl, hx, by simp⟩
      · obtain ⟨e, he, hea⟩ := h
        have hin : e ∈ rest := by
          rcases List.mem_cons.mp he with rfl | hin
          · exact absurd hea hx
          · exact hin
        obtain ⟨es1, e0, es2, h1, h2, h3⟩ := ih ⟨e, hin, hea⟩
        refine ⟨x :: es1, e0, es2, by simp [h1], h2, ?_⟩
        intro y hy
        rcases List.mem_cons.mp hy with rfl | hy
        · exact hx
        · exact h3 y hy

/-- C12 as stated fails in two ways.
At the capacity of the counter: in the host whose only endpoint is
`full_endpoint` (local address 1, `pair_num = 2^32 - 1`), `Insert_tx_pair` of
a pair with local address 1 leaves that endpoint's `pair_num` at 0, not at
the old value plus 1.
On a pair that is already linked under another endpoint: with the pair at 20
linked at the head 2 and the pair at 10 at the head 1, `list_add_tail` of the
pair at 20 at the head 1 leaves the list `[10, 20]` at the head 1, and the
walk of the list at the head 2, which was `[20]`, goes to 20, to the head 1,
to 10 and to 20 again, and never comes back to its head: the pair list of the
other endpoint is not unchanged. -/
theorem Insert_tx_pair_delegation_counterexample :
    full_endpoint.local_ip = 1 ∧
    full_endpoint.pair_num = 4294967295 ∧
    (Insert_tx_pair
      { addr := 64, local_ip := 1, remote_ip := 0, guarantee_bw := 1, timer_interval := 100 }
      { endpoint_list := [full_endpoint], endpoint_num := 1 }).1.endpoint_list.map
        (fun e => e.pair_num) = [0] ∧
    list_entries (list_add_tail 10 1 (list_add_tail 20 2 initialised_heads)) 1 8 =
      some [10] ∧
    list_entries (list_add_tail 10 1 (list_add_tail 20 2 initialised_heads)) 2 8 =
      some [20] ∧
    list_entries
      (list_add_tail 20 1 (list_add_tail 10 1 (list_add_tail 20 2 initialised_heads)))
      1 8 = some [10, 20] ∧
    list_entries
      (list_add_tail 20 1 (list_add_tail 10 1 (list_add_tail 20 2 initialised_heads)))
      2 8 = none ∧
    [2, 20, 1, 10].map (fun a =>
      (list_add_tail 20 1 (list_add_tail 10 1 (list_add_tail 20 2 initialised_heads))
        a).next) = [20, 1, 10, 20] := by
  refine ⟨rfl, full_endpoint_pair_num, ?_, rfl, rfl, rfl, rfl, rfl⟩
  rw [Insert_tx_pair_of_first _ { endpoint_list := [full_endpoint], endpoint_num := 1 }
    [] [] full_endpoint rfl rfl (fun x hx => absurd hx (List.not_mem_nil x))]
  rw [List.nil_append, List.map_cons, List.map_nil, full_endpoint_pair_num]
  rfl

/-- C12, amended (delegation and frame for a pair not yet linked, counter
modulo `2^32`): when the host has an endpoint with the pair's `local_ip` and
the pair is not linked under any endpoint of the host, the endpoint list
splits as `es1 ++ e :: es2` with `e` the first such endpoint, and
`Insert_tx_pair` leaves `es1` and `es2` as they were (order, pair lists and
`pair_num` included), appends `P` to the pair list of `e`, sets that
`pair_num` to `(old + 1) mod 2^32`, which is `old + 1` when `old < 2^32 - 1`,
and keeps the other fields of `e` and the host's `endpoint_num`; the pair is
linked by exactly one `list_add_tail`, under the lock of `e`. -/
theorem Insert_tx_pair_delegation (H : tx_context) (P : pair_tx_context)
    (hm : ∃ e ∈ H.endpoint_list, e.local_ip = P.local_ip)
    (_hfresh : pair_not_linked_in_host P H) :
    ∃ es1 e es2, H.endpoint_list = es1 ++ e :: es2 ∧ e.local_ip = P.local_ip ∧
      (∀ x ∈ es1, x.local_ip ≠ P.local_ip) ∧
      (Insert_tx_pair P H).1.endpoint_list =
        es1 ++ { e with pair_list := e.pair_list ++ [P],
                        pair_num := (e.pair_num + 1) % UINT_MOD } :: es2 ∧
      (e.pair_num + 1 < UINT_MOD → (e.pair_num + 1) % UINT_MOD = e.pair_num + 1) ∧
      (Insert_tx_pair P H).1.endpoint_num = H.endpoint_num ∧
      (Insert_tx_pair P H).2 =
        [Effect.spin_lock_endpoint e.addr, Effect.list_add_tail_pair P.addr e.addr,
         Effect.pair_num_inc e.addr, Effect.spin_unlock_endpoint e.addr] := by
  obtain ⟨es1, e, es2, h1, h2, h3⟩ := exists_first_local_ip P.local_ip H.endpoint_list hm
  refine ⟨es1, e, es2, h1, h2, h3, ?_⟩
  rw [Insert_tx_pair_of_first P H es1 es2 e h1 h2 h3]
  exact ⟨rfl, fun hlt => Nat.mod_eq_of_lt hlt, rfl, rfl⟩

/-- A pair 10.0.0.2 → 10.0.0.9 at 4096 inserted into a host with the endpoints
10.0.0.1, 10.0.0.2 and a second 10.0.0.2, none of which links a pair. -/
theorem Insert_tx_pair_delegation_witness :
    ∃ es1 e es2,
      [({ addr := 512, local_ip := 167772161, guarantee_bw := 100, pair_list := [],
          pair_num := 0 } : endpoint_tx_context),
       { addr := 1024, local_ip := 167772162, guarantee_bw := 100, pair_list := [],
         pair_num := 0 },
       { addr := 2048, local_ip := 167772162, guarantee_bw := 100, pair_list := [],
         pair_num := 0 }] = es1 ++ e :: es2 ∧
      e.local_ip = 167772162 ∧
      (∀ x ∈ es1, x.local_ip ≠ 167772162) ∧
      (Insert_tx_pair
        { addr := 4096, local_ip := 167772162, remote_ip := 167772169, guarantee_bw := 40,
          timer_interval := 100 }
        { endpoint_list :=
            [{ addr := 512, local_ip := 167772161, guarantee_bw := 100, pair_list := [],
               pair_num := 0 },
             { addr := 1024, local_ip := 167772162, guarantee_bw := 100, pair_list := [],
               pair_num := 0 },
             { addr := 2048, local_ip := 167772162, guarantee_bw := 100, pair_list := [],
               pair_num := 0 }],
          endpoint_num := 3 }).2 =
        [Effect.spin_lock_endpoint e.addr, Effect.list_add_tail_pair 4096 e.addr,
         Effect.pair_num_inc e.addr, Effect.spin_unlock_endpoint e.addr] := by
  obtain ⟨es1, e, es2, h1, h2, h3, _, _, _, h7⟩ := Insert_tx_pair_delegation
    { endpoint_list :=
        [{ addr := 512, local_ip := 167772161, guarantee_bw := 100, pair_list := [],
           pair_num := 0 },
         { addr := 1024, local_ip := 167772162, guarantee_bw := 100, pair_list := [],
           pair_num := 0 },
         { addr := 2048, local_ip := 167772162, guarantee_bw := 100, pair_list := [],
           pair_num := 0 }],
      endpoint_num := 3 }
    { addr := 4096, local_ip := 167772162, remote_ip := 167772169, guarantee_bw := 40,
      timer_interval := 100 }
    ⟨{ addr := 1024, local_ip := 167772162, guarantee_bw := 100, pair_list := [],
       pair_num := 0 }, by simp, rfl⟩
    (by simp [pair_not_linked_in_host, pair_not_linked])
  exact ⟨es1, e, es2, h1, h2, h3, h7⟩

/-! ### Construction and teardown of a pair -/

/-- C13 (pair teardown order): the effects of `Free_pair_tx_context` are, in
this order, the cancellation of the timer, the kill of the tasklet, the
release of the rate limiter (`Free_tbf`) and the release of the limiter's
storage; each of the first three occurs exactly once, and whatever precedes the
release of the rate limiter in the trace holds both cancellations, the timer's
before the tasklet's. -/
theorem Free_pair_tx_context_order (ptr : pair_tx_context) :
    Free_pair_tx_context ptr =
      [Effect.hrtimer_cancel ptr.addr, Effect.tasklet_kill ptr.addr,
       Effect.Free_tbf ptr.addr, Effect.kfree_tbfPtr ptr.addr] ∧
    (Free_pair_tx_context ptr).count (Effect.hrtimer_cancel ptr.addr) = 1 ∧
    (Free_pair_tx_context ptr).count (Effect.tasklet_kill ptr.addr) = 1 ∧
    (Free_pair_tx_context ptr).count (Effect.Free_tbf ptr.addr) = 1 ∧
    (∀ pre post, Free_pair_tx_context ptr = pre ++ Effect.Free_tbf ptr.addr :: post →
      pre = [Effect.hrtimer_cancel ptr.addr, Effect.tasklet_kill ptr.addr]) ∧
    (∀ pre post, Free_pair_tx_context ptr = pre ++ Effect.kfree_tbfPtr ptr.addr :: post →
      Effect.hrtimer_cancel ptr.addr ∈ pre ∧ Effect.tasklet_kill ptr.addr ∈ pre) := by
  refine ⟨rfl, by simp [Free_pair_tx_context], by simp [Free_pair_tx_context],
    by simp [Free_pair_tx_context], ?_, ?_⟩
  · intro pre post h
    rcases pre with _ | ⟨x, _ | ⟨y, _ | ⟨z, _ | ⟨w, r⟩⟩⟩⟩ <;>
      simp_all [Free_pair_tx_context]
  · intro pre post h
    rcases pre with _ | ⟨x, _ | ⟨y, _ | ⟨z, _ | ⟨w, r⟩⟩⟩⟩ <;>
      simp_all [Free_pair_tx_context]

theorem Init_pair_tx_context_null (Init_tbf : Nat → Nat → Nat → Nat → Int → Nat)
    (local_ip remote_ip bw bucket max_len tasklet_func timer_func delay : Nat) (flags : Int) :
    Init_pair_tx_context Init_tbf none local_ip remote_ip bw bucket max_len tasklet_func
      timer_func delay flags = (0, none, []) := rfl

theorem Init_pair_tx_context_fail (Init_tbf : Nat → Nat → Nat → Nat → Int → Nat)
    (p : pair_tx_context)
    (local_ip remote_ip bw bucket max_len tasklet_func timer_func delay : Nat) (flags : Int)
    (h : Init_tbf p.addr bw bucket max_len flags = 0) :
    Init_pair_tx_context Init_tbf (some p) local_ip remote_ip bw bucket max_len tasklet_func
      timer_func delay flags =
      (0, some { p with local_ip := local_ip, remote_ip := remote_ip, guarantee_bw := bw },
       [Effect.Init_tbf p.addr bw bucket max_len flags]) := by
  simp [Init_pair_tx_context, h]

theorem Init_pair_tx_context_ok (Init_tbf : Nat → Nat → Nat → Nat → Int → Nat)
    (p : pair_tx_context)
    (local_ip remote_ip bw bucket max_len tasklet_func timer_func delay : Nat) (flags : Int)
    (h : Init_tbf p.addr bw bucket max_len flags ≠ 0) :
    Init_pair_tx_context Init_tbf (some p) local_ip remote_ip bw bucket max_len tasklet_func
      timer_func delay flags =
      (1, some { p with local_ip := local_ip, remote_ip := remote_ip, guarantee_bw := bw,
                        timer_function := timer_func, timer_interval := delay },
       [Effect.Init_tbf p.addr bw bucket max_len flags,
        Effect.tasklet_init p.addr tasklet_func,
        Effect.hrtimer_init p.addr,
        Effect.hrtimer_start p.addr (ktime_set 0 (uint_mul delay 1000)),
        Effect.spin_lock_init_pair p.addr]) := by
  simp [Init_pair_tx_context, h]

/-- C14 (pair construction is all-or-nothing with respect to the rate
limiter): `Init_pair_tx_context` returns 1 exactly when the target is not
`NULL` and `Init_tbf`, called with the given `bw`, `bucket`, `max_len` and
`flags`, does not return 0, and returns 0 otherwise. When it returns 0 its
trace holds no `tasklet_init`, `hrtimer_init` or `hrtimer_start`. When it
returns 1 the fields `local_ip`, `remote_ip`, `guarantee_bw`, `timer_interval`
hold the arguments, the timer's callback is `timer_func`, and the trace is the
call of `Init_tbf`, the initialisation of the tasklet with `tasklet_func`, the
initialisation of the timer, one start of the timer and the initialisation of
the lock. -/
theorem Init_pair_tx_context_all_or_nothing (Init_tbf : Nat → Nat → Nat → Nat → Int → Nat)
    (ptr : Option pair_tx_context)
    (local_ip remote_ip bw bucket max_len tasklet_func timer_func delay : Nat) (flags : Int)
    (r : Nat × Option pair_tx_context × List Effect)
    (hr : Init_pair_tx_context Init_tbf ptr local_ip remote_ip bw bucket max_len tasklet_func
      timer_func delay flags = r) :
    (r.1 = 1 ↔ ∃ p, ptr = some p ∧ Init_tbf p.addr bw bucket max_len flags ≠ 0) ∧
    (r.1 ≠ 1 → r.1 = 0) ∧
    (r.1 = 0 → ∀ a f ns, Effect.tasklet_init a f ∉ r.2.2 ∧ Effect.hrtimer_init a ∉ r.2.2 ∧
      Effect.hrtimer_start a ns ∉ r.2.2) ∧
    (r.1 = 1 → ∃ p q, ptr = some p ∧ r.2.1 = some q ∧ q.addr = p.addr ∧
      q.local_ip = local_ip ∧ q.remote_ip = remote_ip ∧ q.guarantee_bw = bw ∧
      q.timer_interval = delay ∧ q.timer_function = timer_func ∧
      r.2.2 = [Effect.Init_tbf p.addr bw bucket max_len flags,
               Effect.tasklet_init p.addr tasklet_func,
               Effect.hrtimer_init p.addr,
               Effect.hrtimer_start p.addr (ktime_set 0 (uint_mul delay 1000)),
               Effect.spin_lock_init_pair p.addr] ∧
      r.2.2.count (Effect.hrtimer_start p.addr (ktime_set 0 (uint_mul delay 1000))) = 1 ∧
      ∀ a ns, Effect.hrtimer_start a ns ∈ r.2.2 →
        a = p.addr ∧ ns = ktime_set 0 (uint_mul delay 1000)) := by
  subst hr
  cases ptr with
  | none =>
      rw [Init_pair_tx_context_null]
      simp
  | some p =>
      by_cases h : Init_tbf p.addr bw bucket max_len flags = 0
      · rw [Init_pair_tx_context_fail Init_tbf p _ _ _ _ _ _ _ _ _ h]
        simp [h]
      · rw [Init_pair_tx_context_ok Init_tbf p _ _ _ _ _ _ _ _ _ h]
        simp [h]

/-- A pair 10.0.0.1 → 10.0.0.2 constructed with a rate limiter whose
initialiser succeeds. -/
theorem Init_pair_tx_context_all_or_nothing_witness :
    (Init_pair_tx_context (fun _ _ _ _ _ => 1)
      (some { addr := 4096, local_ip := 0, remote_ip := 0, guarantee_bw := 0,
              timer_interval := 0 })
      167772161 167772162 40 8192 64 7000 9000 100 32).1 = 1 ↔
    ∃ p, (some { addr := 4096, local_ip := 0, remote_ip := 0, guarantee_bw := 0,
                 timer_interval := 0 } : Option pair_tx_context) = some p ∧
      (fun _ _ _ _ _ => 1 : Nat → Nat → Nat → Nat → Int → Nat) p.addr 40 8192 64 32 ≠ 0 :=
  (Init_pair_tx_context_all_or_nothing (fun _ _ _ _ _ => 1)
    (some { addr := 4096, local_ip := 0, remote_ip := 0, guarantee_bw := 0,
            timer_interval := 0 })
    167772161 167772162 40 8192 64 7000 9000 100 32 _ rfl).1

/-- C15 as stated fails for a large interval: a successful
`Init_pair_tx_context` with `delay = 4294968` microseconds starts the timer
with an expiry of 704 nanoseconds, the product `4294968 * 1000` taken modulo
`2^32`, which is not 4294968 microseconds (4294968000 nanoseconds). -/
theorem timer_expiry_counterexample :
    (Init_pair_tx_context (fun _ _ _ _ _ => 1)
      (some { addr := 4096, local_ip := 0, remote_ip := 0, guarantee_bw := 0,
              timer_interval := 0 })
      167772161 167772162 40 8192 64 7000 9000 4294968 32).1 = 1 ∧
    (Init_pair_tx_context (fun _ _ _ _ _ => 1)
      (some { addr := 4096, local_ip := 0, remote_ip := 0, guarantee_bw := 0,
              timer_interval := 0 })
      167772161 167772162 40 8192 64 7000 9000 4294968 32).2.2 =
      [Effect.Init_tbf 4096 40 8192 64 32, Effect.tasklet_init 4096 7000,
       Effect.hrtimer_init 4096, Effect.hrtimer_start 4096 704,
       Effect.spin_lock_init_pair 4096] ∧
    4294968 < UINT_MOD ∧
    704 ≠ 4294968 * 1000 := by
  refine ⟨rfl, rfl, ?_, ?_⟩ <;> decide

/-- C15, amended (timer interval arithmetic): for every `unsigned int` value
`delay` passed to a successful `Init_pair_tx_context`, the timer is started
exactly once, relative, with an expiry of `(delay * 1000) mod 2^32`
nanoseconds, the product the code computes in `unsigned int`; this is
`delay * 1000` nanoseconds, that is `delay` microseconds, exactly when
`delay <= 4294967`, and less than that for every larger `delay`. -/
theorem timer_expiry (Init_tbf : Nat → Nat → Nat → Nat → Int → Nat)
    (ptr : Option pair_tx_context)
    (local_ip remote_ip bw bucket max_len tasklet_func timer_func delay : Nat) (flags : Int)
    (hdelay : delay < UINT_MOD)
    (hok : (Init_pair_tx_context Init_tbf ptr local_ip remote_ip bw bucket max_len
      tasklet_func timer_func delay flags).1 = 1) :
    ∃ p, ptr = some p ∧
      (Init_pair_tx_context Init_tbf ptr local_ip remote_ip bw bucket max_len
        tasklet_func timer_func delay flags).2.2.count
          (Effect.hrtimer_start p.addr ((delay * 1000) % UINT_MOD)) = 1 ∧
      (∀ a ns, Effect.hrtimer_start a ns ∈
        (Init_pair_tx_context Init_tbf ptr local_ip remote_ip bw bucket max_len
          tasklet_func timer_func delay flags).2.2 →
        a = p.addr ∧ ns = (delay * 1000) % UINT_MOD) ∧
      (delay ≤ 4294967 → (delay * 1000) % UINT_MOD = delay * 1000) ∧
      (4294967 < delay → (delay * 1000) % UINT_MOD < delay * 1000) := by
  have harith : (delay ≤ 4294967 → (delay * 1000) % UINT_MOD = delay * 1000) ∧
      (4294967 < delay → (delay * 1000) % UINT_MOD < delay * 1000) := by
    unfold UINT_MOD at *
    constructor <;> intro h <;> omega
  have hk : ktime_set 0 (uint_mul delay 1000) = (delay * 1000) % UINT_MOD := by
    simp [ktime_set, uint_mul]
  cases ptr with
  | none =>
      rw [Init_pair_tx_context_null] at hok
      cases hok
  | some p =>
      by_cases h : Init_tbf p.addr bw bucket max_len flags = 0
      · rw [Init_pair_tx_context_fail Init_tbf p _ _ _ _ _ _ _ _ _ h] at hok
        cases hok
      · rw [Init_pair_tx_context_ok Init_tbf p _ _ _ _ _ _ _ _ _ h, hk]
        refine ⟨p, rfl, by simp, ?_, harith⟩
        intro a ns hmem
        simpa using hmem

/-- A pair constructed with the interval 100 microseconds: the timer is
started with 100000 nanoseconds. -/
theorem timer_expiry_witness :
    ∃ p, (some { addr := 4096, local_ip := 0, remote_ip := 0, guarantee_bw := 0,
                 timer_interval := 0 } : Option pair_tx_context) = some p ∧
      (Init_pair_tx_context (fun _ _ _ _ _ => 1)
        (some { addr := 4096, local_ip := 0, remote_ip := 0, guarantee_bw := 0,
                timer_interval := 0 })
        167772161 167772162 40 8192 64 7000 9000 100 32).2.2.count
          (Effect.hrtimer_start p.addr ((100 * 1000) % UINT_MOD)) = 1 := by
  obtain ⟨p, h1, h2, _⟩ := timer_expiry (fun _ _ _ _ _ => 1)
    (some { addr := 4096, local_ip := 0, remote_ip := 0, guarantee_bw := 0,
            timer_interval := 0 })
    167772161 167772162 40 8192 64 7000 9000 100 32 (by decide) rfl
  exact ⟨p, h1, h2⟩

/-! ### Initialisation of the registry -/

/-- C16 (registry initialisation): `Init_tx_context` returns 0 exactly for a
`NULL` target and otherwise returns 1 and leaves `endpoint_num = 0` and an
empty endpoint list, on which `Search_tx_pair` returns `NULL` for every key;
`Init_endpoint_tx_context` returns 0 exactly for a `NULL` target and otherwise
returns 1 and leaves `local_ip = ip`, `guarantee_bw = bw`, `pair_num = 0` and
an empty pair list. -/
theorem registry_initialisation :
    (∀ ptr : Option tx_context, (Init_tx_context ptr).1 = 0 ↔ ptr = none) ∧
    (∀ h : tx_context, (Init_tx_context (some h)).1 = 1 ∧
      ∃ h', (Init_tx_context (some h)).2.1 = some h' ∧ h'.endpoint_num = 0 ∧
        h'.endpoint_list = [] ∧ ∀ a b, (Search_tx_pair h' a b).1 = none) ∧
    (∀ (ptr : Option endpoint_tx_context) (ip bw : Nat),
      (Init_endpoint_tx_context ptr ip bw).1 = 0 ↔ ptr = none) ∧
    (∀ (e : endpoint_tx_context) (ip bw : Nat),
      (Init_endpoint_tx_context (some e) ip bw).1 = 1 ∧
      ∃ e', (Init_endpoint_tx_context (some e) ip bw).2.1 = some e' ∧ e'.local_ip = ip ∧
        e'.guarantee_bw = bw ∧ e'.pair_num = 0 ∧ e'.pair_list = [] ∧ e'.addr = e.addr) := by
  refine ⟨?_, ?_, ?_, ?_⟩
  · intro ptr
    cases ptr <;> simp [Init_tx_context]
  · intro h
    exact ⟨rfl, _, rfl, rfl, rfl, fun _ _ => rfl⟩
  · intro ptr ip bw
    cases ptr <;> simp [Init_endpoint_tx_context]
  · intro e ip bw
    exact ⟨rfl, _, rfl, rfl, rfl, rfl, rfl, rfl⟩

/-! ### Key agreement between a pair and its endpoint -/

/-- C19 (parent/child key agreement): in every host state reached from
`Init_tx_context` by a sequence of `Insert_tx_endpoint` (of freshly initialised
endpoints), `Insert_tx_pair` and `Delete_tx_pair_endpoint`, without a direct
call of `Insert_tx_pair_endpoint`, every pair stored under an endpoint has the
`local_ip` of that endpoint. -/
theorem key_agreement_reachable (raw h0 : tx_context) (ops : List Op)
    (hinit : (Init_tx_context (some raw)).2.1 = some h0)
    (hops : ∀ op ∈ ops, op.via_host = true) :
    ∀ E ∈ (run h0 ops).endpoint_list, ∀ P ∈ E.pair_list, P.local_ip = E.local_ip := by
  have h0eq : h0 = { endpoint_list := [], endpoint_num := 0 } := by
    simp only [Init_tx_context, Option.some.injEq] at hinit
    exact hinit.symm
  have hk0 : key_agreement h0.endpoint_list := by
    rw [h0eq]; intro e he; cases he
  have hs0 : shadowed_empty h0.endpoint_list := by
    rw [h0eq]; exact List.Pairwise.nil
  exact (run_lookup_inv h0 ops hops hk0 hs0).1

/-- The run of scenario B: endpoint 10.0.0.1 inserted, pair
10.0.0.1 → 10.0.0.2 and pair 10.0.0.1 → 10.0.0.3 inserted, a pair with the
unknown local address 10.0.0.9 offered and dropped, the first pair deleted. -/
theorem key_agreement_reachable_witness :
    key_agreement (run { endpoint_list := [], endpoint_num := 0 }
        [Op.insert_endpoint
           { addr := 512, local_ip := 0, guarantee_bw := 0, pair_list := [], pair_num := 0 }
           167772161 100,
         Op.insert_pair
           { addr := 4096, local_ip := 167772161, remote_ip := 167772162, guarantee_bw := 40,
             timer_interval := 100 },
         Op.insert_pair
           { addr := 8192, local_ip := 167772161, remote_ip := 167772163, guarantee_bw := 40,
             timer_interval := 100 },
         Op.insert_pair
           { addr := 12288, local_ip := 167772169, remote_ip := 167772163, guarantee_bw := 40,
             timer_interval := 100 },
         Op.delete_pair_endpoint 167772161 167772162 0]).endpoint_list :=
  key_agreement_reachable
    { endpoint_list := [], endpoint_num := 9 }
    { endpoint_list := [], endpoint_num := 0 }
    _ rfl (by simp [Op.via_host])

/-! ### Agreement of `Search_tx_pair` and `Delete_tx_pair_endpoint` -/

theorem Search_tx_pair_outer_only (a r : Nat) (es1 es2 : List endpoint_tx_context)
    (e : endpoint_tx_context) (he : e.local_ip = a)
    (h1 : ∀ x ∈ es1, x.local_ip ≠ a) (h2 : ∀ x ∈ es2, x.local_ip ≠ a) :
    Search_tx_pair_outer a r (es1 ++ e :: es2) = Search_tx_pair_inner r e.pair_list := by
  have hrest : Search_tx_pair_outer a r es2 = none :=
    (Search_tx_pair_outer_eq_none a r es2).mpr (fun x hx hip => absurd hip (h2 x hx))
  induction es1 with
  | nil =>
      cases hin : Search_tx_pair_inner r e.pair_list with
      | none => simp [Search_tx_pair_outer, he, hin, hrest]
      | some p => simp [Search_tx_pair_outer, he, hin]
  | cons x rest ih =>
      have hx : x.local_ip ≠ a := h1 x (by simp)
      rw [List.cons_append, Search_tx_pair_outer, if_neg hx]
      exact ih (fun y hy => h1 y (by simp [hy]))

theorem Delete_loop_agrees_with_search (l r : Nat) (ps : List pair_tx_context)
    (hk : ∀ p ∈ ps, p.local_ip = l) :
    (Delete_tx_pair_endpoint_loop l r ps).map Prod.snd = Search_tx_pair_inner r ps := by
  induction ps with
  | nil => rfl
  | cons x rest ih =>
      have hx : x.local_ip = l := hk x (by simp)
      have ih' := ih (fun p hp => hk p (by simp [hp]))
      by_cases hr : x.remote_ip = r
      · simp [Delete_tx_pair_endpoint_loop, Search_tx_pair_inner, hx, hr]
      · have hno : ¬ (x.local_ip = l ∧ x.remote_ip = r) := fun h => hr h.2
        rw [Delete_tx_pair_endpoint_loop, if_neg hno, Search_tx_pair_inner, if_neg hr, ← ih']
        cases Delete_tx_pair_endpoint_loop l r rest with
        | none => rfl
        | some v => rfl

theorem distinct_local_ip_split (es1 es2 : List endpoint_tx_context) (e : endpoint_tx_context)
    (hd : distinct_local_ip (es1 ++ e :: es2)) :
    (∀ x ∈ es1, x.local_ip ≠ e.local_ip) ∧ (∀ x ∈ es2, x.local_ip ≠ e.local_ip) := by
  obtain ⟨_, p2, p3⟩ := List.pairwise_append.mp hd
  obtain ⟨q1, _⟩ := List.pairwise_cons.mp p2
  exact ⟨fun x hx => p3 x hx e (by simp), fun x hx h => q1 x hx h.symm⟩

theorem Search_tx_pair_inner_after_removal (r : Nat) (ps1 ps2 : List pair_tx_context)
    (p : pair_tx_context) (hp : p.remote_ip = r)
    (hd : distinct_remote_ip (ps1 ++ p :: ps2)) :
    Search_tx_pair_inner r (ps1 ++ ps2) = none := by
  obtain ⟨_, p2, p3⟩ := List.pairwise_append.mp hd
  obtain ⟨q1, _⟩ := List.pairwise_cons.mp p2
  apply (Search_tx_pair_inner_eq_none r (ps1 ++ ps2)).mpr
  intro q hq
  rcases List.mem_append.mp hq with h | h
  · rw [← hp]; exact p3 q h p (by simp)
  · rw [← hp]; exact fun heq => q1 q h heq.symm

/-- C20 (search and delete agree on keys): in a host with pairwise distinct
endpoint `local_ip`, in which every stored pair carries its endpoint's
`local_ip` and every `pair_num` is the length of its pair list, for an
endpoint `E` of the host and a remote address `r`:
`Search_tx_pair(H, E.local_ip, r)` returns a pair exactly when
`Delete_tx_pair_endpoint(E.local_ip, r, E)` returns 1; the pair the delete
unlinks and frees is the pair the search returned, and the other pairs stay in
order; and when the `remote_ip` within `E` are distinct, the search in the
host after the delete returns `NULL`. -/
theorem Search_Delete_agree (H : tx_context) (es1 es2 : List endpoint_tx_context)
    (E : endpoint_tx_context) (r : Nat)
    (hH : H.endpoint_list = es1 ++ E :: es2)
    (hd : distinct_local_ip H.endpoint_list)
    (hk : key_agreement H.endpoint_list)
    (hc : ∀ e ∈ H.endpoint_list, endpoint_count_inv e) :
    ((∃ p, (Search_tx_pair H E.local_ip r).1 = some p) ↔
      (Delete_tx_pair_endpoint E.local_ip r E).1 = 1) ∧
    (∀ p, (Search_tx_pair H E.local_ip r).1 = some p →
      ∃ ps1 ps2, E.pair_list = ps1 ++ p :: ps2 ∧
        Delete_tx_pair_endpoint_loop E.local_ip r E.pair_list = some (ps1 ++ ps2, p) ∧
        (Delete_tx_pair_endpoint E.local_ip r E).2.1.pair_list = ps1 ++ ps2 ∧
        Effect.list_del_pair p.addr ∈ (Delete_tx_pair_endpoint E.local_ip r E).2.2 ∧
        Effect.kfree_pair p.addr ∈ (Delete_tx_pair_endpoint E.local_ip r E).2.2) ∧
    (distinct_remote_ip E.pair_list →
      (Search_tx_pair
        { H with endpoint_list := es1 ++ (Delete_tx_pair_endpoint E.local_ip r E).2.1 :: es2 }
        E.local_ip r).1 = none) := by
  have hmem : E ∈ H.endpoint_list := by rw [hH]; simp
  rw [hH] at hd
  obtain ⟨s1, s2⟩ := distinct_local_ip_split es1 es2 E hd
  have hsearch : (Search_tx_pair H E.local_ip r).1 = Search_tx_pair_inner r E.pair_list := by
    show Search_tx_pair_outer E.local_ip r H.endpoint_list = _
    rw [hH]
    exact Search_tx_pair_outer_only E.local_ip r es1 es2 E rfl s1 s2
  have hafter : ∀ E' : endpoint_tx_context, E'.local_ip = E.local_ip →
      (Search_tx_pair { H with endpoint_list := es1 ++ E' :: es2 } E.local_ip r).1 =
        Search_tx_pair_inner r E'.pair_list := by
    intro E' hE'
    exact Search_tx_pair_outer_only E.local_ip r es1 es2 E' hE' s1 s2
  have hagree := Delete_loop_agrees_with_search E.local_ip r E.pair_list (hk E hmem)
  have hcE : E.pair_num = E.pair_list.length := hc E hmem
  rw [hsearch]
  cases hl : Delete_tx_pair_endpoint_loop E.local_ip r E.pair_list with
  | none =>
      rw [hl] at hagree
      have hnone : Search_tx_pair_inner r E.pair_list = none := hagree.symm
      have hdel := Delete_tx_pair_endpoint_of_no_key E.local_ip r E
        ((Delete_tx_pair_endpoint_loop_eq_none E.local_ip r E.pair_list).mp hl)
      rw [hnone]
      refine ⟨?_, ?_, ?_⟩
      · rw [hdel.1]; simp
      · intro p hp; cases hp
      · intro _
        rw [hdel.2, hafter E rfl, hnone]
  | some v =>
      obtain ⟨ps', q⟩ := v
      rw [hl] at hagree
      have hsome : Search_tx_pair_inner r E.pair_list = some q := hagree.symm
      obtain ⟨ps1, ps2, d1, d2, d3, d4⟩ :=
        Delete_tx_pair_endpoint_loop_eq_some E.local_ip r E.pair_list ps' q hl
      have h0 : E.pair_num ≠ 0 := by rw [hcE, d1]; simp
      have hdel := Delete_tx_pair_endpoint_of_hit E.local_ip r E ps1 ps2 q h0 d1 d3 d4
      rw [hsome, hdel]
      refine ⟨?_, ?_, ?_⟩
      · simp
      · intro p hp
        cases hp
        exact ⟨ps1, ps2, d1, by rw [d2], rfl, by simp, by simp⟩
      · intro hdist
        rw [d1] at hdist
        exact (hafter { E with pair_list := ps1 ++ ps2, pair_num := uint_dec E.pair_num }
          rfl).trans (Search_tx_pair_inner_after_removal r ps1 ps2 q d3.2 hdist)

/-- The endpoint 10.0.0.1 holding the pairs to 10.0.0.2 and 10.0.0.3, in a
host that also has the endpoint 10.0.0.5, and the remote address 10.0.0.3. -/
theorem Search_Delete_agree_witness :
    (∃ p, (Search_tx_pair
      { endpoint_list :=
          [{ addr := 512, local_ip := 167772161, guarantee_bw := 100,
             pair_list := [{ addr := 4096, local_ip := 167772161, remote_ip := 167772162,
                             guarantee_bw := 40, timer_interval := 100 },
                           { addr := 8192, local_ip := 167772161, remote_ip := 167772163,
                             guarantee_bw := 40, timer_interval := 100 }],
             pair_num := 2 },
           { addr := 1024, local_ip := 167772165, guarantee_bw := 100, pair_list := [],
             pair_num := 0 }],
        endpoint_num := 2 } 167772161 167772163).1 = some p) ↔
    (Delete_tx_pair_endpoint 167772161 167772163
      { addr := 512, local_ip := 167772161, guarantee_bw := 100,
        pair_list := [{ addr := 4096, local_ip := 167772161, remote_ip := 167772162,
                        guarantee_bw := 40, timer_interval := 100 },
                      { addr := 8192, local_ip := 167772161, remote_ip := 167772163,
                        guarantee_bw := 40, timer_interval := 100 }],
        pair_num := 2 }).1 = 1 :=
  (Search_Delete_agree
    { endpoint_list :=
        [{ addr := 512, local_ip := 167772161, guarantee_bw := 100,
           pair_list := [{ addr := 4096, local_ip := 167772161, remote_ip := 167772162,
                           guarantee_bw := 40, timer_interval := 100 },
                         { addr := 8192, local_ip := 167772161, remote_ip := 167772163,
                           guarantee_bw := 40, timer_interval := 100 }],
           pair_num := 2 },
         { addr := 1024, local_ip := 167772165, guarantee_bw := 100, pair_list := [],
           pair_num := 0 }],
      endpoint_num := 2 }
    []
    [{ addr := 1024, local_ip := 167772165, guarantee_bw := 100, pair_list := [],
       pair_num := 0 }]
    { addr := 512, local_ip := 167772161, guarantee_bw := 100,
      pair_list := [{ addr := 4096, local_ip := 167772161, remote_ip := 167772162,
                      guarantee_bw := 40, timer_interval := 100 },
                    { addr := 8192, local_ip := 167772161, remote_ip := 167772163,
                      guarantee_bw := 40, timer_interval := 100 }],
      pair_num := 2 }
    167772163 rfl
    (by simp [distinct_local_ip])
    (by simp [key_agreement])
    (by simp [endpoint_count_inv])).1

/-! ### Lock discipline -/

theorem lock_discipline_Insert_tx_endpoint (owner : Nat → Option Nat)
    (E : endpoint_tx_context) (H : tx_context) :
    lock_discipline owner false [] (Insert_tx_endpoint E H).2 = true := by
  simp [Insert_tx_endpoint, lock_discipline]

theorem lock_discipline_Insert_tx_pair_endpoint (owner : Nat → Option Nat)
    (p : Option pair_tx_context) (e : Option endpoint_tx_context) :
    lock_discipline owner false [] (Insert_tx_pair_endpoint p e).2 = true := by
  cases p <;> cases e <;> simp [Insert_tx_pair_endpoint, lock_discipline]

theorem lock_discipline_Insert_tx_pair (owner : Nat → Option Nat)
    (P : pair_tx_context) (H : tx_context) :
    lock_discipline owner false [] (Insert_tx_pair P H).2 = true := by
  cases hl : Insert_tx_pair_loop P H.endpoint_list with
  | none => simp [Insert_tx_pair, hl, lock_discipline]
  | some v =>
      obtain ⟨es', tr⟩ := v
      obtain ⟨es1, e0, es2, _, _, _, _, d5⟩ :=
        Insert_tx_pair_loop_eq_some P H.endpoint_list es' tr hl
      simp [Insert_tx_pair, hl, d5, lock_discipline]

theorem lock_discipline_Delete_tx_pair_endpoint (owner : Nat → Option Nat) (l r : Nat)
    (E : endpoint_tx_context) (ho : ∀ q ∈ E.pair_list, owner q.addr = some E.addr) :
    lock_discipline owner false [] (Delete_tx_pair_endpoint l r E).2.2 = true := by
  by_cases h0 : E.pair_num = 0
  · rw [Delete_tx_pair_endpoint_of_zero l r E h0]
    simp [lock_discipline]
  · cases hl : Delete_tx_pair_endpoint_loop l r E.pair_list with
    | none =>
        rw [Delete_tx_pair_endpoint_of_miss l r E h0
          ((Delete_tx_pair_endpoint_loop_eq_none l r E.pair_list).mp hl)]
        simp [lock_discipline]
    | some v =>
        obtain ⟨ps', q⟩ := v
        obtain ⟨ps1, ps2, h1, _, h3, h4⟩ :=
          Delete_tx_pair_endpoint_loop_eq_some l r E.pair_list ps' q hl
        rw [Delete_tx_pair_endpoint_of_hit l r E ps1 ps2 q h0 h1 h3 h4]
        have hq : owner q.addr = some E.addr := ho q (by rw [h1]; simp)
        simp [lock_discipline, hq]

theorem lock_discipline_Empty_tx_context_endpoints (owner : Nat → Option Nat) (host : Bool)
    (es : List endpoint_tx_context) (suffix : List Effect)
    (h : ∃ e ∈ es, e.pair_list ≠ []) :
    lock_discipline owner host [] ((Empty_tx_context_endpoints es).2 ++ suffix) = false := by
  induction es with
  | nil => obtain ⟨e, he, _⟩ := h; cases he
  | cons x rest ih =>
      cases hx : x.pair_list with
      | nil =>
          have hrest : ∃ e ∈ rest, e.pair_list ≠ [] := by
            obtain ⟨e, he, hne⟩ := h
            rcases List.mem_cons.mp he with rfl | hin
            · exact absurd hx hne
            · exact ⟨e, hin, hne⟩
          simp [Empty_tx_context_endpoints, Empty_tx_context_pairs, print_endpoint_tx_context,
            hx, lock_discipline, ih hrest]
      | cons p ps =>
          cases ho : owner p.addr <;>
            simp [Empty_tx_context_endpoints, Empty_tx_context_pairs,
              print_endpoint_tx_context, print_pair_tx_context, hx, lock_discipline, ho]

/-- Whenever the host holds a pair, the trace of `Empty_tx_context` breaks the
lock discipline: the pair is unlinked with no `endpoint_lock` held. -/
theorem lock_discipline_Empty_tx_context (owner : Nat → Option Nat) (H : tx_context)
    (h : ∃ e ∈ H.endpoint_list, e.pair_list ≠ []) :
    lock_discipline owner false [] (Empty_tx_context H).2 = false := by
  have := lock_discipline_Empty_tx_context_endpoints owner true H.endpoint_list
    [Effect.spin_unlock_tx] h
  simp [Empty_tx_context, lock_discipline, this]

/-- C17 (per-level lock discipline), evaluated on the host whose endpoint
10.0.0.1 (address 512) holds the pair 10.0.0.1 → 10.0.0.2 (address 4096): the
traces of `Insert_tx_endpoint`, `Insert_tx_pair_endpoint`, `Insert_tx_pair`
and `Delete_tx_pair_endpoint` keep the discipline, but `Empty_tx_context`
unlinks the pair, which the endpoint 512 owns, while only `tx_lock` is held:
its trace takes no `endpoint_lock` at all and fails the check. -/
theorem Empty_tx_context_breaks_lock_discipline :
    pair_owner
      [{ addr := 512, local_ip := 167772161, guarantee_bw := 100,
         pair_list := [{ addr := 4096, local_ip := 167772161, remote_ip := 167772162,
                         guarantee_bw := 40, timer_interval := 100 }],
         pair_num := 1 }] 4096 = some 512 ∧
    (Empty_tx_context
      { endpoint_list :=
          [{ addr := 512, local_ip := 167772161, guarantee_bw := 100,
             pair_list := [{ addr := 4096, local_ip := 167772161, remote_ip := 167772162,
                             guarantee_bw := 40, timer_interval := 100 }],
             pair_num := 1 }],
        endpoint_num := 1 }).2 =
      [Effect.spin_lock_tx, Effect.print_endpoint 512, Effect.print_pair 4096,
       Effect.list_del_pair 4096, Effect.kfree_pair 4096, Effect.list_del_endpoint 512,
       Effect.kfree_endpoint 512, Effect.spin_unlock_tx] ∧
    lock_discipline
      (pair_owner
        [{ addr := 512, local_ip := 167772161, guarantee_bw := 100,
           pair_list := [{ addr := 4096, local_ip := 167772161, remote_ip := 167772162,
                           guarantee_bw := 40, timer_interval := 100 }],
           pair_num := 1 }])
      false []
      (Empty_tx_context
        { endpoint_list :=
            [{ addr := 512, local_ip := 167772161, guarantee_bw := 100,
               pair_list := [{ addr := 4096, local_ip := 167772161, remote_ip := 167772162,
                               guarantee_bw := 40, timer_interval := 100 }],
               pair_num := 1 }],
          endpoint_num := 1 }).2 = false ∧
    lock_discipline
      (pair_owner
        [{ addr := 512, local_ip := 167772161, guarantee_bw := 100,
           pair_list := [{ addr := 4096, local_ip := 167772161, remote_ip := 167772162,
                           guarantee_bw := 40, timer_interval := 100 }],
           pair_num := 1 }])
      false []
      (Delete_tx_pair_endpoint 167772161 167772162
        { addr := 512, local_ip := 167772161, guarantee_bw := 100,
          pair_list := [{ addr := 4096, local_ip := 167772161, remote_ip := 167772162,
                          guarantee_bw := 40, timer_interval := 100 }],
          pair_num := 1 }).2.2 = true ∧
    lock_discipline
      (pair_owner
        [{ addr := 512, local_ip := 167772161, guarantee_bw := 100,
           pair_list := [{ addr := 4096, local_ip := 167772161, remote_ip := 167772162,
                           guarantee_bw := 40, timer_interval := 100 }],
           pair_num := 1 }])
      false []
      (Insert_tx_pair
        { addr := 8192, local_ip := 167772161, remote_ip := 167772163, guarantee_bw := 40,
          timer_interval := 100 }
        { endpoint_list :=
            [{ addr := 512, local_ip := 167772161, guarantee_bw := 100,
               pair_list := [{ addr := 4096, local_ip := 167772161, remote_ip := 167772162,
                               guarantee_bw := 40, timer_interval := 100 }],
               pair_num := 1 }],
          endpoint_num := 1 }).2 = true ∧
    lock_discipline
      (pair_owner
        [{ addr := 512, local_ip := 167772161, guarantee_bw := 100,
           pair_list := [{ addr := 4096, local_ip := 167772161, remote_ip := 167772162,
                           guarantee_bw := 40, timer_interval := 100 }],
           pair_num := 1 }])
      false []
      (Insert_tx_endpoint
        { addr := 1024, local_ip := 167772165, guarantee_bw := 100, pair_list := [],
          pair_num := 0 }
        { endpoint_list :=
            [{ addr := 512, local_ip := 167772161, guarantee_bw := 100,
               pair_list := [{ addr := 4096, local_ip := 167772161, remote_ip := 167772162,
                               guarantee_bw := 40, timer_interval := 100 }],
               pair_num := 1 }],
          endpoint_num := 1 }).2 = true := by
  refine ⟨?_, rfl, ?_, ?_, ?_, ?_⟩ <;> decide

/-! ### The diagnostic dump -/

theorem uint_inc_add (n k : Nat) :
    (uint_inc n + k) % UINT_MOD = (n + (k + 1)) % UINT_MOD := by
  unfold uint_inc
  unfold UINT_MOD at *
  omega

theorem print_tx_context_pairs_eq (n : Nat) (hn : n < UINT_MOD) (ps : List pair_tx_context) :
    print_tx_context_pairs n ps =
      ((n + ps.length) % UINT_MOD, ps.map (fun p => Effect.print_pair p.addr)) := by
  induction ps generalizing n with
  | nil => simp [print_tx_context_pairs, Nat.mod_eq_of_lt hn]
  | cons p rest ih =>
      simp only [print_tx_context_pairs, ih (uint_inc n) (uint_inc_lt n),
        print_pair_tx_context, List.map_cons, List.length_cons, List.singleton_append,
        uint_inc_add n rest.length]

theorem print_tx_context_endpoints_eq (n : Nat) (hn : n < UINT_MOD)
    (es : List endpoint_tx_context) :
    print_tx_context_endpoints n es = ((n + total_pairs es) % UINT_MOD, dump_lines es) := by
  induction es generalizing n with
  | nil => simp [print_tx_context_endpoints, total_pairs, dump_lines, Nat.mod_eq_of_lt hn]
  | cons e rest ih =>
      have hlt : (n + e.pair_list.length) % UINT_MOD < UINT_MOD := Nat.mod_lt _ (by decide)
      have harith : ((n + e.pair_list.length) % UINT_MOD + total_pairs rest) % UINT_MOD =
          (n + total_pairs (e :: rest)) % UINT_MOD := by
        have : total_pairs (e :: rest) = e.pair_list.length + total_pairs rest := by
          simp [total_pairs]
        rw [this]
        unfold UINT_MOD
        omega
      simp only [print_tx_context_endpoints, print_tx_context_pairs_eq n hn e.pair_list,
        ih _ hlt, harith, print_endpoint_tx_context]
      simp [dump_lines]

theorem dump_lines_length (es : List endpoint_tx_context) :
    (dump_lines es).length = es.length + total_pairs es := by
  induction es with
  | nil => rfl
  | cons e rest ih =>
      have h1 : dump_lines (e :: rest) = (Effect.print_endpoint e.addr ::
          e.pair_list.map (fun p => Effect.print_pair p.addr)) ++ dump_lines rest := by
        simp [dump_lines]
      have h2 : total_pairs (e :: rest) = e.pair_list.length + total_pairs rest := by
        simp [total_pairs]
      rw [h1, h2, List.length_append, ih]
      simp
      omega

theorem print_tx_context_eq (H : tx_context) :
    print_tx_context H = dump_lines H.endpoint_list ++
      [Effect.print_summary H.endpoint_num (total_pairs H.endpoint_list % UINT_MOD)] := by
  unfold print_tx_context
  rw [print_tx_context_endpoints_eq 0 (by decide) H.endpoint_list]
  simp

/-- C18 as stated fails on a host whose `endpoint_num` differs from the number
of its endpoints, such as the host `Empty_tx_context` leaves behind: after the
teardown of a host with one endpoint the endpoint list is empty, and
`print_tx_context` emits the single summary line with the endpoint total 1,
not 0. -/
theorem print_tx_context_shape_counterexample :
    (Empty_tx_context
      { endpoint_list :=
          [{ addr := 512, local_ip := 167772161, guarantee_bw := 100, pair_list := [],
             pair_num := 0 }],
        endpoint_num := 1 }).1.endpoint_list.length = 0 ∧
    print_tx_context
      (Empty_tx_context
        { endpoint_list :=
            [{ addr := 512, local_ip := 167772161, guarantee_bw := 100, pair_list := [],
               pair_num := 0 }],
          endpoint_num := 1 }).1 = [Effect.print_summary 1 0] := by
  constructor <;> rfl

/-- C18, amended (diagnostic dump shape): for every host with `E` endpoints
holding `P` pairs in total, `print_tx_context` emits exactly `E + P + 1` lines:
each endpoint's line followed at once by one line per pair of that endpoint in
list order, and a final summary line whose endpoint total is the host's
`endpoint_num` field and whose pair total is `P mod 2^32`; the totals are `E`
and `P` when `endpoint_num = E` and `P < 2^32`. -/
theorem print_tx_context_shape (H : tx_context) :
    print_tx_context H = dump_lines H.endpoint_list ++
      [Effect.print_summary H.endpoint_num (total_pairs H.endpoint_list % UINT_MOD)] ∧
    (print_tx_context H).length = H.endpoint_list.length + total_pairs H.endpoint_list + 1 ∧
    (H.endpoint_num = H.endpoint_list.length → total_pairs H.endpoint_list < UINT_MOD →
      print_tx_context H = dump_lines H.endpoint_list ++
        [Effect.print_summary H.endpoint_list.length (total_pairs H.endpoint_list)]) := by
  refine ⟨print_tx_context_eq H, ?_, ?_⟩
  · rw [print_tx_context_eq, List.length_append, dump_lines_length]
    simp
  · intro h1 h2
    rw [print_tx_context_eq, h1, Nat.mod_eq_of_lt h2]

/-- The dump of a host with the endpoint 10.0.0.1 holding two pairs and the
endpoint 10.0.0.5 holding none: five lines. -/
theorem print_tx_context_shape_witness :
    print_tx_context
      { endpoint_list :=
          [{ addr := 512, local_ip := 167772161, guarantee_bw := 100,
             pair_list := [{ addr := 4096, local_ip := 167772161, remote_ip := 167772162,
                             guarantee_bw := 40, timer_interval := 100 },
                           { addr := 8192, local_ip := 167772161, remote_ip := 167772163,
                             guarantee_bw := 40, timer_interval := 100 }],
             pair_num := 2 },
           { addr := 1024, local_ip := 167772165, guarantee_bw := 100, pair_list := [],
             pair_num := 0 }],
        endpoint_num := 2 } =
      [Effect.print_endpoint 512, Effect.print_pair 4096, Effect.print_pair 8192,
       Effect.print_endpoint 1024] ++ [Effect.print_summary 2 2] :=
  (print_tx_context_shape _).2.2 rfl (by decide)

end Trinity
